import Mathlib

/-!
Verification of the AIToDoList core against its specification.

The development shallowly embeds the core of the repository:
* the task/list data model (src/types/index.ts),
* the pure task algorithms (src/lib/taskUtils.ts),
* the reducer-style state controller (TasksContext, tasksReducer),
* the dual-backend load path (src/lib/storage.ts, loadTodoLists and the
  provider loadData flow), and
* the dispatching hook layer (useTaskOperations) where it is relevant to a
  claim.

JavaScript specifics are modelled as follows: JS numbers holding orders are
Int; ISO timestamp strings and client-generated ids are opaque String
parameters (the clock and id generator are passed in explicitly); JS
Array.prototype.sort with comparator (a, b) => a.order - b.order is a stable
sort by order, modelled by insertion sort on the order field, which is stable
in exactly the same sense; JS string truthiness (empty string is falsy) is
modelled where the code relies on it.
-/

namespace AIToDoList

/-- Priority levels of the Eisenhower matrix (enum PriorityLevel, values 1-4
in the source). -/
inductive PriorityLevel where
  | urgentImportant
  | importantNotUrgent
  | urgentNotImportant
  | neitherUrgentNorImportant
deriving DecidableEq, Repr, Fintype

/-- Score values for each priority level (const PriorityScores in
src/types/index.ts: 1 -> 10, 2 -> 7, 3 -> 5, 4 -> 2). -/
def PriorityScores : PriorityLevel → Nat
  | PriorityLevel.urgentImportant => 10
  | PriorityLevel.importantNotUrgent => 7
  | PriorityLevel.urgentNotImportant => 5
  | PriorityLevel.neitherUrgentNorImportant => 2

/-- Task record (interface Task in src/types/index.ts). -/
structure Task where
  id : String
  title : String
  description : Option String
  deadline : Option String
  deadlineTime : Option String
  completed : Bool
  priority : PriorityLevel
  createdAt : String
  updatedAt : String
  order : Int
deriving DecidableEq, Repr

/-- Todo list record (interface TodoList in src/types/index.ts). -/
structure TodoList where
  id : String
  name : String
  tasks : List Task
  createdAt : String
  updatedAt : String
deriving DecidableEq, Repr

/-- Filter options (enum FilterOption in src/types/index.ts). -/
inductive FilterOption where
  | all
  | active
  | completed
deriving DecidableEq, Repr

/-- Context state (interface TasksState plus the loading flag used by the
current TasksContext revision). -/
structure TasksState where
  todoLists : List TodoList
  activeTodoListId : Option String
  filter : FilterOption
  totalScore : Nat
  loading : Bool
deriving DecidableEq, Repr

/-- Payload of the INITIALIZE_DATA action. -/
structure InitPayload where
  todoLists : List TodoList
  activeTodoListId : Option String
  filter : FilterOption
deriving DecidableEq, Repr

/-- Direction argument of MOVE_TASK. -/
inductive MoveDirection where
  | up
  | down
deriving DecidableEq, Repr

/-- Discriminated union of reducer actions (type TasksAction in
src/types/index.ts, plus SET_LOADING and INITIALIZE_DATA of the current
revision). -/
inductive TasksAction where
  | addTask (payload : Task)
  | updateTask (payload : Task)
  | deleteTask (id : String)
  | toggleComplete (id : String)
  | changePriority (id : String) (priority : PriorityLevel)
  | moveTask (id : String) (direction : MoveDirection)
  | setFilter (f : FilterOption)
  | calculateScore
  | addTodoList (name : String)
  | updateTodoList (id : String) (name : String)
  | deleteTodoList (id : String)
  | setActiveTodoList (id : String)
  | setLoading (b : Bool)
  | initializeData (payload : InitPayload)
deriving DecidableEq, Repr

/-- createTask from src/lib/taskUtils.ts.  The generated id and the clock
reading are passed in (the source reads Date.now/Math.random and
new Date().toISOString()). -/
def createTask (freshId : String) (now : String) (title : String)
    (priority : PriorityLevel) : Task :=
  { id := "task-" ++ freshId
    title := title
    description := some ""
    deadline := none
    deadlineTime := none
    completed := false
    priority := priority
    createdAt := now
    updatedAt := now
    order := 0 }

/-- calculateTotalScore from src/lib/taskUtils.ts: filter the completed
tasks, then reduce adding the priority score of each. -/
def calculateTotalScore (tasks : List Task) : Nat :=
  (tasks.filter (fun t => t.completed)).foldl
    (fun total t => total + PriorityScores t.priority) 0

/-- Comparator relation of the JS sort call
sort((a, b) => a.order - b.order). -/
def ordLE (a b : Task) : Prop := a.order ≤ b.order

instance : DecidableRel ordLE := fun a b => inferInstanceAs (Decidable (a.order ≤ b.order))

instance : IsTotal Task ordLE := ⟨fun a b => le_total a.order b.order⟩

instance : IsTrans Task ordLE := ⟨fun _ _ _ hab hbc => le_trans hab hbc⟩

/-- Strict version of the comparator, used only in proofs. -/
def ordLT (a b : Task) : Prop := a.order < b.order

instance : IsAntisymm Task ordLT := ⟨fun _ _ h h₂ => absurd h₂ (lt_asymm h)⟩

/-- Stable sort by the order field.  JS Array.prototype.sort is stable, and
for the comparator (a, b) => a.order - b.order it produces the unique stable
ascending arrangement by order, which is what insertion sort with a
non-strict comparison computes. -/
def sortByOrder (l : List Task) : List Task := List.insertionSort ordLE l

/-- The map((task, index) => ({ ...task, order: index })) step of
updateTaskOrders, unrolled with an explicit starting index. -/
def assignOrders : Nat → List Task → List Task
  | _, [] => []
  | n, t :: ts => { t with order := (n : Int) } :: assignOrders (n + 1) ts

/-- The find(t => t.id === task.id) || task replacement step of
updateTaskOrders. -/
def bucketLookup (updated : List Task) (task : Task) : Task :=
  match updated.find? (fun t => t.id == task.id) with
  | some updatedTask => updatedTask
  | none => task

/-- updateTaskOrders from src/lib/taskUtils.ts (the spec calls it
renumberBucket): collect the bucket, sort it by order, reassign orders
0, 1, ..., and substitute the renumbered tasks back by id. -/
def updateTaskOrders (tasks : List Task) (priority : PriorityLevel) : List Task :=
  let tasksInPriority := sortByOrder (tasks.filter (fun t => t.priority == priority))
  let updatedTasksInPriority := assignOrders 0 tasksInPriority
  tasks.map (fun task =>
    if task.priority == priority then bucketLookup updatedTasksInPriority task
    else task)

/-- moveTask from src/lib/taskUtils.ts (the spec calls it moveWithinBucket):
swap order values with the adjacent task in the sorted bucket, no-op at the
boundary or for an unknown id.  The two unreachable lookup-failure branches
(the source would index out of range there, which cannot happen) return the
input unchanged. -/
def moveTask (tasks : List Task) (taskId : String) (direction : MoveDirection) :
    List Task :=
  match tasks.find? (fun t => t.id == taskId) with
  | none => tasks
  | some taskToMove =>
    let tasksInPriority := sortByOrder (tasks.filter (fun t => t.priority == taskToMove.priority))
    match tasksInPriority.findIdx? (fun t => t.id == taskId) with
    | none => tasks
    | some currentIndex =>
      let targetIndexOpt : Option Nat :=
        match direction with
        | MoveDirection.up => if 0 < currentIndex then some (currentIndex - 1) else none
        | MoveDirection.down =>
          if currentIndex < tasksInPriority.length - 1 then some (currentIndex + 1) else none
      match targetIndexOpt with
      | none => tasks
      | some targetIndex =>
        match tasksInPriority[targetIndex]? with
        | none => tasks
        | some targetTask =>
          let currentOrder := taskToMove.order
          let targetOrder := targetTask.order
          tasks.map (fun task =>
            if task.id == taskToMove.id then { task with order := targetOrder }
            else if task.id == targetTask.id then { task with order := currentOrder }
            else task)

/-- The highest-order computation shared by ADD_TASK and changeTaskPriority:
list.length > 0 ? Math.max(...list.map(t => t.order)) + 1 : 0. -/
def jsMaxPlus1 (orders : List Int) : Int :=
  match orders with
  | [] => 0
  | o :: os => os.foldl max o + 1

/-- changeTaskPriority from src/lib/taskUtils.ts (the spec calls it
reprioritize).  The clock reading for updatedAt is passed in. -/
def changeTaskPriority (now : String) (tasks : List Task) (taskId : String)
    (newPriority : PriorityLevel) : List Task :=
  match tasks.find? (fun t => t.id == taskId) with
  | none => tasks
  | some taskToUpdate =>
    if taskToUpdate.priority == newPriority then tasks
    else
      let tasksInNewPriority := tasks.filter (fun t => t.priority == newPriority)
      let highestOrder := jsMaxPlus1 (tasksInNewPriority.map (fun t => t.order))
      let updatedTasks := tasks.map (fun task =>
        if task.id == taskId then
          { task with priority := newPriority, order := highestOrder, updatedAt := now }
        else task)
      updateTaskOrders updatedTasks taskToUpdate.priority

/-- Orders found in one priority bucket of a task collection. -/
def bucketOrders (tasks : List Task) (b : PriorityLevel) : List Int :=
  (tasks.filter (fun t => t.priority == b)).map (fun t => t.order)

/-- The density invariant of the spec for one list of order values: the
values are exactly 0, 1, ..., length - 1 in some arrangement. -/
def denseOrders (l : List Int) : Prop :=
  l.Perm ((List.range l.length).map (fun k : Nat => (k : Int)))

instance (l : List Int) : Decidable (denseOrders l) :=
  inferInstanceAs (Decidable (l.Perm _))

/-- getActiveTodoList helper of tasksReducer.  JS truthiness: a null or
empty-string activeTodoListId yields null, and so does an empty list
collection. -/
def getActiveTodoList (state : TasksState) : Option TodoList :=
  match state.activeTodoListId with
  | none => none
  | some aid =>
    if aid == "" then none
    else if state.todoLists.isEmpty then none
    else state.todoLists.find? (fun l => l.id == aid)

/-- updateTodoList helper of tasksReducer: substitute the given task list
into the list with the given id and stamp that list's updatedAt. -/
def updateTodoListHelper (now : String) (state : TasksState) (todoListId : String)
    (updatedTasks : List Task) : List TodoList :=
  state.todoLists.map (fun todoList =>
    if todoList.id == todoListId then
      { todoList with tasks := updatedTasks, updatedAt := now }
    else todoList)

/-- The [0]?.id || null computation of the DELETE_TODO_LIST case, including
JS string truthiness (an empty-string id collapses to null). -/
def jsFirstListId (lists : List TodoList) : Option String :=
  match lists.head? with
  | some l => if l.id == "" then none else some l.id
  | none => none

/-- tasksReducer of the current TasksContext revision.  The clock reading
and the id generated for ADD_TODO_LIST are passed in. -/
def tasksReducer (now : String) (freshListId : String) (state : TasksState)
    (action : TasksAction) : TasksState :=
  match action with
  | TasksAction.addTask payload =>
    match getActiveTodoList state with
    | none => state
    | some activeTodoList =>
      let tasksInPriority := activeTodoList.tasks.filter
        (fun t => t.priority == payload.priority)
      let highestOrder := jsMaxPlus1 (tasksInPriority.map (fun t => t.order))
      let newTask := { payload with order := highestOrder }
      let updatedTasks := activeTodoList.tasks ++ [newTask]
      { state with
          todoLists := updateTodoListHelper now state activeTodoList.id updatedTasks
          totalScore := calculateTotalScore updatedTasks }
  | TasksAction.updateTask payload =>
    match getActiveTodoList state with
    | none => state
    | some activeTodoList =>
      let updatedTasks := activeTodoList.tasks.map (fun task =>
        if task.id == payload.id then payload else task)
      { state with
          todoLists := updateTodoListHelper now state activeTodoList.id updatedTasks
          totalScore := calculateTotalScore updatedTasks }
  | TasksAction.deleteTask taskId =>
    match getActiveTodoList state with
    | none => state
    | some activeTodoList =>
      let filteredTasks := activeTodoList.tasks.filter (fun t => !(t.id == taskId))
      let updatedTasks :=
        match activeTodoList.tasks.find? (fun t => t.id == taskId) with
        | some taskToDelete => updateTaskOrders filteredTasks taskToDelete.priority
        | none => filteredTasks
      { state with
          todoLists := updateTodoListHelper now state activeTodoList.id updatedTasks
          totalScore := calculateTotalScore updatedTasks }
  | TasksAction.toggleComplete taskId =>
    match getActiveTodoList state with
    | none => state
    | some activeTodoList =>
      let updatedTasks := activeTodoList.tasks.map (fun task =>
        if task.id == taskId then
          { task with completed := !task.completed, updatedAt := now }
        else task)
      { state with
          todoLists := updateTodoListHelper now state activeTodoList.id updatedTasks
          totalScore := calculateTotalScore updatedTasks }
  | TasksAction.changePriority taskId priority =>
    match getActiveTodoList state with
    | none => state
    | some activeTodoList =>
      let updatedTasks := changeTaskPriority now activeTodoList.tasks taskId priority
      { state with
          todoLists := updateTodoListHelper now state activeTodoList.id updatedTasks
          totalScore := calculateTotalScore updatedTasks }
  | TasksAction.moveTask taskId direction =>
    match getActiveTodoList state with
    | none => state
    | some activeTodoList =>
      let updatedTasks := moveTask activeTodoList.tasks taskId direction
      { state with
          todoLists := updateTodoListHelper now state activeTodoList.id updatedTasks }
  | TasksAction.setFilter f => { state with filter := f }
  | TasksAction.calculateScore =>
    let totalScore :=
      match getActiveTodoList state with
      | some activeTodoList => calculateTotalScore activeTodoList.tasks
      | none => 0
    { state with totalScore := totalScore }
  | TasksAction.addTodoList name =>
    let newTodoList : TodoList :=
      { id := "list-" ++ freshListId
        name := name
        tasks := []
        createdAt := now
        updatedAt := now }
    let updatedTodoLists := state.todoLists ++ [newTodoList]
    let newActiveTodoListId :=
      match state.activeTodoListId with
      | some aid => if aid == "" then some newTodoList.id else some aid
      | none => some newTodoList.id
    { state with
        todoLists := updatedTodoLists
        activeTodoListId := newActiveTodoListId }
  | TasksAction.updateTodoList listId name =>
    let updatedTodoLists := state.todoLists.map (fun todoList =>
      if todoList.id == listId then
        { todoList with name := name, updatedAt := now }
      else todoList)
    { state with todoLists := updatedTodoLists }
  | TasksAction.deleteTodoList listId =>
    if state.todoLists.length ≤ 1 then state
    else
      let filteredTodoLists := state.todoLists.filter (fun l => !(l.id == listId))
      let newActiveTodoListId :=
        match state.activeTodoListId with
        | some aid => if aid == listId then jsFirstListId filteredTodoLists
                      else state.activeTodoListId
        | none => state.activeTodoListId
      { state with
          todoLists := filteredTodoLists
          activeTodoListId := newActiveTodoListId }
  | TasksAction.setActiveTodoList listId =>
    let totalScore :=
      match state.todoLists.find? (fun l => l.id == listId) with
      | some activeTodoList => calculateTotalScore activeTodoList.tasks
      | none => 0
    { state with activeTodoListId := some listId, totalScore := totalScore }
  | TasksAction.setLoading b => { state with loading := b }
  | TasksAction.initializeData payload =>
    let activeTasks :=
      match payload.activeTodoListId with
      | some aid =>
        if aid == "" then []
        else
          match payload.todoLists.find? (fun l => l.id == aid) with
          | some l => l.tasks
          | none => []
      | none => []
    { state with
        todoLists := payload.todoLists
        activeTodoListId := payload.activeTodoListId
        filter := payload.filter
        totalScore := calculateTotalScore activeTasks
        loading := false }

/-- Local browser storage as relevant to the load path: availability of
localStorage, the parsed value of the list-of-lists key (none when the key is
absent or does not parse to an array, which the source treats as absence),
and the parsed value of the legacy flat-task-array key. -/
structure LocalStore where
  available : Bool
  todoLists : Option (List TodoList)
  legacyTasks : Option (List Task)
deriving DecidableEq, Repr

/-- Outcome of the remote (Firestore) read: a list of lists (a null result
is indistinguishable from an empty array in the source and is modelled as
the empty list), or a raised error. -/
inductive RemoteResult where
  | ok (lists : List TodoList)
  | failed
deriving DecidableEq, Repr

/-- The trailing section of loadTodoLists in src/lib/storage.ts, reached
when no user is logged in or when the user branch falls through without
returning: read the key and return the parsed array, or an empty array. -/
def localSectionLoad (store : LocalStore) : List TodoList :=
  if store.available then
    match store.todoLists with
    | some parsedLists => parsedLists
    | none => []
  else []

/-- loadTodoLists from src/lib/storage.ts.  With a (truthy) userId the
remote store is consulted first; an empty remote result falls back to a
non-empty local value or, failing that, falls through to the trailing local
section; a remote error falls back to a non-empty local value or returns the
empty list. -/
def loadTodoLists (userId : Option String) (remote : RemoteResult)
    (store : LocalStore) : List TodoList :=
  match userId with
  | some u =>
    if u == "" then localSectionLoad store
    else
      match remote with
      | RemoteResult.ok firebaseTodoLists =>
        if 0 < firebaseTodoLists.length then firebaseTodoLists
        else
          match (if store.available then store.todoLists else none) with
          | some parsedLists =>
            if 0 < parsedLists.length then parsedLists else localSectionLoad store
          | none => localSectionLoad store
      | RemoteResult.failed =>
        match (if store.available then store.todoLists else none) with
        | some parsedLists =>
          if 0 < parsedLists.length then parsedLists else []
        | none => []
  | none => localSectionLoad store

/-- The local half of saveTodoLists from src/lib/storage.ts: write the
list-of-lists key when localStorage is available.  The remote half touches
no local key and in particular never the legacy key. -/
def saveTodoListsLocal (store : LocalStore) (lists : List TodoList) : LocalStore :=
  if store.available then { store with todoLists := some lists } else store

/-- migrateOldTasks of the current src/lib/storage.ts revision: wrap the
given tasks into one synthesized default list.  Note that this revision
takes the tasks as an argument, reads nothing from storage and removes no
key; and no code on the current load path calls it (the TasksContext
revision imports it but never invokes it — an older revision embedded in
AuthContext.tsx called a parameterless variant that read and removed the
legacy key itself). -/
def migrateOldTasks (now : String) (tasks : List Task) : List TodoList :=
  [{ id := "default"
     name := "My Tasks"
     tasks := tasks
     createdAt := now
     updatedAt := now }]

/-- The todo-list portion of loadData in the current TasksContext revision:
load the lists, and when none exist synthesize one default list (fixed name,
empty tasks, id default-Date.now()) and save it immediately.  Returns the
lists handed to INITIALIZE_DATA together with the local store as it stands
after the load completes. -/
def loadDataLists (userId : Option String) (remote : RemoteResult)
    (store : LocalStore) (now : String) (freshId : String) :
    List TodoList × LocalStore :=
  let todoLists := loadTodoLists userId remote store
  if todoLists.length == 0 then
    let defaultList : TodoList :=
      { id := "default-" ++ freshId
        name := "My Tasks"
        tasks := []
        createdAt := now
        updatedAt := now }
    ([defaultList], saveTodoListsLocal store [defaultList])
  else (todoLists, store)

/-- JS String.prototype.trim, modelled structurally on the character list
(drop leading and trailing whitespace). -/
def jsTrim (s : String) : String :=
  String.mk (((s.data.dropWhile Char.isWhitespace).reverse.dropWhile
    Char.isWhitespace).reverse)

/-- JS truthiness of an optional string argument. -/
def strTruthy : Option String → Bool
  | none => false
  | some s => !(s == "")

/-- addTask of the useTaskOperations hook: refuse when the trimmed title is
empty or no active list id is set, otherwise build the task via createTask,
conditionally attach the optional fields, and dispatch ADD_TASK. -/
def hookAddTask (now : String) (freshId : String) (state : TasksState)
    (title : String) (description : Option String) (deadline : Option String)
    (priority : PriorityLevel) (deadlineTime : Option String) : TasksState :=
  if jsTrim title == "" || !(strTruthy state.activeTodoListId) then state
  else
    let newTask := createTask freshId now title priority
    let newTask := if strTruthy description then
        { newTask with description := description } else newTask
    let newTask := if strTruthy deadline then
        { newTask with deadline := deadline } else newTask
    let newTask := if strTruthy deadlineTime then
        { newTask with deadlineTime := deadlineTime } else newTask
    tasksReducer now freshId state (TasksAction.addTask newTask)

/-- updateTask of the useTaskOperations hook: stamp the payload's updatedAt
with the current time, then dispatch UPDATE_TASK. -/
def hookUpdateTask (now : String) (freshId : String) (state : TasksState)
    (task : Task) : TasksState :=
  tasksReducer now freshId state
    (TasksAction.updateTask { task with updatedAt := now })

/-! Basic helper lemmas about the embedded operations. -/

/-- Rebuilding a task with its own order is the identity. -/
theorem setOrder_self (t : Task) : { t with order := t.order } = t := rfl

/-- Membership extracted from an indexed lookup. -/
theorem mem_of_getElem?_some {α : Type} {l : List α} {i : Nat} {a : α}
    (h : l[i]? = some a) : a ∈ l := by
  obtain ⟨hi, rfl⟩ := List.getElem?_eq_some.mp h
  exact List.getElem_mem hi

/-- Ids are injective on a collection whose id projection has no duplicate. -/
theorem id_inj_of_nodup {l : List Task}
    (h : (l.map (fun t => t.id)).Nodup) {a b : Task} (ha : a ∈ l) (hb : b ∈ l)
    (hid : a.id = b.id) : a = b :=
  List.inj_on_of_nodup_map h ha hb hid

theorem assignOrders_length (n : Nat) (l : List Task) :
    (assignOrders n l).length = l.length := by
  induction l generalizing n with
  | nil => rfl
  | cons t ts ih => simp [assignOrders, ih]

theorem assignOrders_getElem? (n : Nat) (l : List Task) (i : Nat) :
    (assignOrders n l)[i]? =
      (l[i]?).map (fun t => { t with order := ((n + i : Nat) : Int) }) := by
  induction l generalizing n i with
  | nil => simp [assignOrders]
  | cons t ts ih =>
    cases i with
    | zero => simp [assignOrders]
    | succ j =>
      have h := ih (n + 1) j
      simpa [assignOrders, Nat.add_assoc, Nat.add_comm 1 j] using h

theorem assignOrders_map_id (n : Nat) (l : List Task) :
    (assignOrders n l).map (fun t => t.id) = l.map (fun t => t.id) := by
  induction l generalizing n with
  | nil => rfl
  | cons t ts ih => simp [assignOrders, ih]

theorem assignOrders_map_order (n : Nat) (l : List Task) :
    (assignOrders n l).map (fun t => t.order) =
      (List.range' n l.length).map (fun k : Nat => (k : Int)) := by
  induction l generalizing n with
  | nil => rfl
  | cons t ts ih => simp [assignOrders, ih, List.range'_succ]

theorem mem_assignOrders {u : Task} {n : Nat} {l : List Task}
    (h : u ∈ assignOrders n l) :
    ∃ t ∈ l, ∃ m : Nat, n ≤ m ∧ u = { t with order := (m : Int) } := by
  induction l generalizing n with
  | nil => cases h
  | cons t ts ih =>
    rcases List.mem_cons.mp h with h1 | h2
    · exact ⟨t, List.mem_cons_self t ts, n, le_refl n, h1⟩
    · obtain ⟨t₂, ht₂, m, hm, hu⟩ := ih h2
      exact ⟨t₂, List.mem_cons_of_mem t ht₂, m, le_of_lt (lt_of_lt_of_le (Nat.lt_succ_self n) hm), hu⟩

theorem sorted_lt_assignOrders (n : Nat) (l : List Task) :
    List.Sorted ordLT (assignOrders n l) := by
  induction l generalizing n with
  | nil => exact List.sorted_nil
  | cons t ts ih =>
    refine List.sorted_cons.mpr ⟨?_, ih (n + 1)⟩
    intro b hb
    obtain ⟨t₂, _, m, hm, rfl⟩ := mem_assignOrders hb
    show ((n : Int)) < (m : Int)
    exact_mod_cast Nat.lt_of_succ_le hm

/-- find? by id retrieves exactly the element at any index, when ids have no
duplicate. -/
theorem find?_of_nodup_getElem? {l : List Task}
    (hnd : (l.map (fun t => t.id)).Nodup) {i : Nat} {t : Task}
    (ht : l[i]? = some t) : l.find? (fun u => u.id == t.id) = some t := by
  induction l generalizing i with
  | nil => simp at ht
  | cons a as ih =>
    rw [List.map_cons, List.nodup_cons] at hnd
    obtain ⟨hna, hnas⟩ := hnd
    cases i with
    | zero =>
      rw [List.getElem?_cons_zero, Option.some_inj] at ht
      subst ht
      exact List.find?_cons_of_pos _ (by simp)
    | succ j =>
      rw [List.getElem?_cons_succ] at ht
      have htm : t ∈ as := mem_of_getElem?_some ht
      have hne : ¬(a.id == t.id) = true := by
        simp only [beq_iff_eq]
        intro he
        exact hna (by rw [he]; exact List.mem_map.mpr ⟨t, htm, rfl⟩)
      have hstep : List.find? (fun u : Task => u.id == t.id) (a :: as) =
          List.find? (fun u : Task => u.id == t.id) as :=
        List.find?_cons_of_neg as hne
      rw [hstep]
      exact ih hnas ht

theorem map_bucketLookup_assignOrders {l : List Task}
    (hnd : (l.map (fun t => t.id)).Nodup) :
    l.map (bucketLookup (assignOrders 0 l)) = assignOrders 0 l := by
  apply List.ext_getElem?
  intro i
  rw [List.getElem?_map, assignOrders_getElem?]
  cases hl : l[i]? with
  | none => rfl
  | some t =>
    have hra : (assignOrders 0 l)[i]? = some { t with order := ((0 + i : Nat) : Int) } := by
      rw [assignOrders_getElem?, hl]; rfl
    have hnd₂ : ((assignOrders 0 l).map (fun u => u.id)).Nodup := by
      rw [assignOrders_map_id]; exact hnd
    have hfind := find?_of_nodup_getElem? hnd₂ hra
    show some (bucketLookup (assignOrders 0 l) t) =
      some ({ t with order := ((0 + i : Nat) : Int) } : Task)
    unfold bucketLookup
    have hpred : (fun u : Task => u.id == t.id) =
        (fun u : Task => u.id == ({ t with order := ((0 + i : Nat) : Int) } : Task).id) := rfl
    rw [hpred, hfind]

/-! Lemmas on the fold computing the JS Math.max call. -/

theorem foldl_max_mem (o : Int) (os : List Int) : os.foldl max o ∈ o :: os := by
  induction os generalizing o with
  | nil => simp
  | cons x xs ih =>
    rw [List.foldl_cons]
    rcases List.mem_cons.mp (ih (max o x)) with h1 | h2
    · rcases max_choice o x with h | h
      · rw [h1, h]; exact List.mem_cons_self _ _
      · rw [h1, h]; exact List.mem_cons_of_mem _ (List.mem_cons_self _ _)
    · exact List.mem_cons_of_mem _ (List.mem_cons_of_mem _ h2)

theorem le_foldl_max (o : Int) (os : List Int) : ∀ x ∈ o :: os, x ≤ os.foldl max o := by
  induction os generalizing o with
  | nil =>
    intro x hx
    rw [List.foldl_nil]
    rcases List.mem_cons.mp hx with h | h
    · exact le_of_eq h
    · cases h
  | cons y ys ih =>
    intro x hx
    rw [List.foldl_cons]
    have hbase : max o y ≤ List.foldl max (max o y) ys :=
      ih (max o y) (max o y) (List.mem_cons_self _ _)
    rcases List.mem_cons.mp hx with h | h
    · exact le_trans (le_of_eq h) (le_trans (le_max_left o y) hbase)
    · rcases List.mem_cons.mp h with h₂ | h₂
      · exact le_trans (le_of_eq h₂) (le_trans (le_max_right o y) hbase)
      · exact ih (max o y) x (List.mem_cons_of_mem _ h₂)

/-! Lemmas about denseOrders, the spec's gapless zero-based property. -/

theorem denseOrders_nil : denseOrders [] := by
  simp [denseOrders]

theorem denseOrders_perm {xs ys : List Int} (h : xs.Perm ys) (hd : denseOrders xs) :
    denseOrders ys := by
  unfold denseOrders at hd ⊢
  rw [← h.length_eq]
  exact h.symm.trans hd

theorem dense_jsMaxPlus1 {xs : List Int} (h : denseOrders xs) :
    jsMaxPlus1 xs = (xs.length : Int) := by
  cases xs with
  | nil => rfl
  | cons o os =>
    unfold denseOrders at h
    set M := os.foldl max o with hM
    have hmem : M ∈ o :: os := foldl_max_mem o os
    have hmem₂ : M ∈ (List.range (o :: os).length).map (fun k : Nat => (k : Int)) :=
      h.mem_iff.mp hmem
    obtain ⟨k, hk, hkM⟩ := List.mem_map.mp hmem₂
    have hklt : k < os.length + 1 := by
      have := List.mem_range.mp hk
      simpa using this
    have hlast : ((os.length : Int)) ∈ o :: os := by
      refine h.mem_iff.mpr (List.mem_map.mpr ⟨os.length, ?_, rfl⟩)
      simpa using Nat.lt_succ_self os.length
    have h1 : (os.length : Int) ≤ M := le_foldl_max o os _ hlast
    have h2 : M ≤ (os.length : Int) := by
      rw [← hkM]
      exact_mod_cast Nat.lt_succ_iff.mp hklt
    have hMeq : M = (os.length : Int) := le_antisymm h2 h1
    show M + 1 = ((os.length + 1 : Nat) : Int)
    rw [hMeq]
    push_cast
    ring

theorem denseOrders_append_jsMax {xs : List Int} (h : denseOrders xs) :
    denseOrders (xs ++ [jsMaxPlus1 xs]) := by
  unfold denseOrders at h ⊢
  rw [List.length_append, List.length_singleton, List.range_succ, List.map_append,
    dense_jsMaxPlus1 h]
  exact h.append (List.Perm.refl _)

theorem denseOrders_cons_jsMax {xs : List Int} (h : denseOrders xs) :
    denseOrders (jsMaxPlus1 xs :: xs) := by
  refine denseOrders_perm ?_ (denseOrders_append_jsMax h)
  have h₂ := @List.perm_middle Int (jsMaxPlus1 xs) xs []
  simpa using h₂

/-! Characterization of updateTaskOrders. -/

/-- The bucket of a priority level, as the source filters it. -/
def bucketOf (tasks : List Task) (b : PriorityLevel) : List Task :=
  tasks.filter (fun t => t.priority == b)

theorem bucketOrders_eq (tasks : List Task) (b : PriorityLevel) :
    bucketOrders tasks b = (bucketOf tasks b).map (fun t => t.order) := rfl

/-- The per-task substitution updateTaskOrders performs. -/
def renumberFun (tasks : List Task) (b : PriorityLevel) : Task → Task :=
  fun task =>
    if task.priority == b then
      bucketLookup (assignOrders 0 (sortByOrder (bucketOf tasks b))) task
    else task

theorem updateTaskOrders_eq_map (tasks : List Task) (b : PriorityLevel) :
    updateTaskOrders tasks b = tasks.map (renumberFun tasks b) := rfl

theorem filter_map_of_pres {F : Task → Task} {p : Task → Bool} :
    ∀ {l : List Task}, (∀ t ∈ l, p (F t) = p t) →
      (l.map F).filter p = (l.filter p).map F := by
  intro l
  induction l with
  | nil => intro _; rfl
  | cons t ts ih =>
    intro h
    have ht := h t (List.mem_cons_self t ts)
    have hts := ih (fun u hu => h u (List.mem_cons_of_mem t hu))
    by_cases hp : p t = true
    · simp [List.filter_cons, ht, hp, hts]
    · simp [List.filter_cons, ht, hp, hts]

theorem mem_sortByOrder {l : List Task} {t : Task} (h : t ∈ sortByOrder l) : t ∈ l :=
  (List.perm_insertionSort ordLE l).mem_iff.mp h

theorem renumberFun_priority (tasks : List Task) (b : PriorityLevel) (t : Task) :
    (renumberFun tasks b t).priority = t.priority := by
  unfold renumberFun
  by_cases hp : (t.priority == b) = true
  · rw [if_pos hp]
    unfold bucketLookup
    cases hf : (assignOrders 0 (sortByOrder (bucketOf tasks b))).find?
        (fun u => u.id == t.id) with
    | none => rfl
    | some u =>
      have humem := List.mem_of_find?_eq_some hf
      obtain ⟨t₂, ht₂, m, _, rfl⟩ := mem_assignOrders humem
      have ht₂b : t₂ ∈ bucketOf tasks b := mem_sortByOrder ht₂
      have h₂ := (List.mem_filter.mp ht₂b).2
      show t₂.priority = t.priority
      rw [beq_iff_eq] at h₂ hp
      rw [h₂, hp]
  · rw [if_neg hp]

theorem renumberFun_of_not_bucket {tasks : List Task} {b : PriorityLevel} {t : Task}
    (h : ¬ t.priority = b) : renumberFun tasks b t = t := by
  unfold renumberFun
  rw [if_neg (by simpa [beq_iff_eq] using h)]

theorem updateTaskOrders_filter_bucket (tasks : List Task) (b : PriorityLevel) :
    (updateTaskOrders tasks b).filter (fun t => t.priority == b) =
      (bucketOf tasks b).map (renumberFun tasks b) := by
  rw [updateTaskOrders_eq_map]
  exact filter_map_of_pres (fun t _ => by rw [renumberFun_priority])

theorem updateTaskOrders_filter_other (tasks : List Task) {b b₂ : PriorityLevel}
    (hne : b₂ ≠ b) :
    (updateTaskOrders tasks b).filter (fun t => t.priority == b₂) =
      tasks.filter (fun t => t.priority == b₂) := by
  rw [updateTaskOrders_eq_map,
    filter_map_of_pres (fun t _ => by rw [renumberFun_priority])]
  have h : ∀ t ∈ tasks.filter (fun t => t.priority == b₂),
      renumberFun tasks b t = t := by
    intro t ht
    have := (List.mem_filter.mp ht).2
    rw [beq_iff_eq] at this
    exact renumberFun_of_not_bucket (by rw [this]; exact hne)
  rw [List.map_congr_left h]
  simp

theorem sortByOrder_map_id_nodup {l : List Task}
    (h : (l.map (fun t => t.id)).Nodup) :
    ((sortByOrder l).map (fun t => t.id)).Nodup :=
  (((List.perm_insertionSort ordLE l).map (fun t => t.id)).nodup_iff).mpr h

theorem map_renumberFun_sorted (tasks : List Task) (b : PriorityLevel)
    (hnd : ((bucketOf tasks b).map (fun t => t.id)).Nodup) :
    (sortByOrder (bucketOf tasks b)).map (renumberFun tasks b) =
      assignOrders 0 (sortByOrder (bucketOf tasks b)) := by
  have hnd₂ : ((sortByOrder (bucketOf tasks b)).map (fun t => t.id)).Nodup :=
    sortByOrder_map_id_nodup hnd
  have hmain := map_bucketLookup_assignOrders hnd₂
  have hpt : ∀ t ∈ sortByOrder (bucketOf tasks b),
      renumberFun tasks b t =
        bucketLookup (assignOrders 0 (sortByOrder (bucketOf tasks b))) t := by
    intro t ht
    have htb : t ∈ bucketOf tasks b := mem_sortByOrder ht
    unfold renumberFun
    rw [if_pos (List.mem_filter.mp htb).2]
  rw [List.map_congr_left hpt, hmain]

theorem bucket_map_renumberFun_perm (tasks : List Task) (b : PriorityLevel)
    (hnd : ((bucketOf tasks b).map (fun t => t.id)).Nodup) :
    ((bucketOf tasks b).map (renumberFun tasks b)).Perm
      (assignOrders 0 (sortByOrder (bucketOf tasks b))) := by
  have hperm : ((bucketOf tasks b).map (renumberFun tasks b)).Perm
      ((sortByOrder (bucketOf tasks b)).map (renumberFun tasks b)) :=
    ((List.perm_insertionSort ordLE (bucketOf tasks b)).symm).map _
  have := map_renumberFun_sorted tasks b hnd
  rw [this] at hperm
  exact hperm

theorem dense_bucket_updateTaskOrders (tasks : List Task) (b : PriorityLevel)
    (hnd : ((bucketOf tasks b).map (fun t => t.id)).Nodup) :
    denseOrders (bucketOrders (updateTaskOrders tasks b) b) := by
  have hfil : bucketOf (updateTaskOrders tasks b) b =
      (bucketOf tasks b).map (renumberFun tasks b) :=
    updateTaskOrders_filter_bucket tasks b
  have hperm := bucket_map_renumberFun_perm tasks b hnd
  have horders : (((bucketOf tasks b).map (renumberFun tasks b)).map (fun t => t.order)).Perm
      ((assignOrders 0 (sortByOrder (bucketOf tasks b))).map (fun t => t.order)) :=
    hperm.map _
  rw [assignOrders_map_order, ← List.range_eq_range'] at horders
  unfold denseOrders
  rw [bucketOrders_eq, hfil]
  have hlen : (((bucketOf tasks b).map (renumberFun tasks b)).map
      (fun t => t.order)).length = (sortByOrder (bucketOf tasks b)).length := by
    simp [sortByOrder, List.length_insertionSort]
  rw [hlen]
  exact horders

/-! Frame lemmas: renumbering touches nothing but the order field. -/

theorem forall₂_map_self {R : Task → Task → Prop} {l : List Task} {F : Task → Task}
    (h : ∀ t ∈ l, R t (F t)) : List.Forall₂ R l (l.map F) :=
  List.forall₂_map_right_iff.mpr (List.forall₂_same.mpr h)

theorem renumberFun_frame (tasks : List Task) (b : PriorityLevel)
    (hnd : ((bucketOf tasks b).map (fun t => t.id)).Nodup) :
    ∀ t ∈ tasks, renumberFun tasks b t =
      { t with order := (renumberFun tasks b t).order } := by
  intro t ht
  by_cases hp : (t.priority == b) = true
  · have hopen : renumberFun tasks b t =
        bucketLookup (assignOrders 0 (sortByOrder (bucketOf tasks b))) t := by
      unfold renumberFun
      rw [if_pos hp]
    rw [hopen]
    unfold bucketLookup
    cases hf : (assignOrders 0 (sortByOrder (bucketOf tasks b))).find?
        (fun u => u.id == t.id) with
    | none => exact (setOrder_self t).symm
    | some u =>
      have hpred := List.find?_some hf
      have humem := List.mem_of_find?_eq_some hf
      obtain ⟨t₂, ht₂s, m, _, rfl⟩ := mem_assignOrders humem
      have ht₂b : t₂ ∈ bucketOf tasks b := mem_sortByOrder ht₂s
      have htb : t ∈ bucketOf tasks b := List.mem_filter.mpr ⟨ht, hp⟩
      have hid : t₂.id = t.id := by
        have : (t₂.id == t.id) = true := hpred
        exact beq_iff_eq.mp this
      have heq : t₂ = t := id_inj_of_nodup hnd ht₂b htb hid
      subst heq
      rfl
  · have hone : renumberFun tasks b t = t :=
      renumberFun_of_not_bucket (fun hc => hp (beq_iff_eq.mpr hc))
    rw [hone]

theorem updateTaskOrders_forall₂ (tasks : List Task) (b : PriorityLevel)
    (hnd : ((bucketOf tasks b).map (fun t => t.id)).Nodup) :
    List.Forall₂ (fun t u => (¬ t.priority = b → u = t) ∧
      u = { t with order := u.order }) tasks (updateTaskOrders tasks b) := by
  rw [updateTaskOrders_eq_map]
  refine forall₂_map_self (fun t ht => ⟨fun hnb => renumberFun_of_not_bucket hnb, ?_⟩)
  exact renumberFun_frame tasks b hnd t ht

/-- The renumbered bucket, read back in ascending (new) order, is exactly the
old bucket in ascending (old) order with orders reassigned 0, 1, 2, .... -/
theorem sortByOrder_updateTaskOrders (tasks : List Task) (b : PriorityLevel)
    (hnd : ((bucketOf tasks b).map (fun t => t.id)).Nodup) :
    sortByOrder (bucketOf (updateTaskOrders tasks b) b) =
      assignOrders 0 (sortByOrder (bucketOf tasks b)) := by
  have hfil : bucketOf (updateTaskOrders tasks b) b =
      (bucketOf tasks b).map (renumberFun tasks b) :=
    updateTaskOrders_filter_bucket tasks b
  rw [hfil]
  have hperm := bucket_map_renumberFun_perm tasks b hnd
  have hsorted_le : List.Sorted ordLE
      (sortByOrder ((bucketOf tasks b).map (renumberFun tasks b))) :=
    List.sorted_insertionSort ordLE _
  have hords : ((sortByOrder ((bucketOf tasks b).map (renumberFun tasks b))).map
      (fun t => t.order)).Perm
      ((assignOrders 0 (sortByOrder (bucketOf tasks b))).map (fun t => t.order)) :=
    ((List.perm_insertionSort ordLE _).map _).trans (hperm.map _)
  have hnodup_r : ((assignOrders 0 (sortByOrder (bucketOf tasks b))).map
      (fun t => t.order)).Nodup := by
    rw [assignOrders_map_order, ← List.range_eq_range']
    exact (List.nodup_range _).map (fun x y hxy => by exact_mod_cast hxy)
  have hnodup_ord : ((sortByOrder ((bucketOf tasks b).map (renumberFun tasks b))).map
      (fun t => t.order)).Nodup := hords.nodup_iff.mpr hnodup_r
  have hne : List.Pairwise (fun a c : Task => a.order ≠ c.order)
      (sortByOrder ((bucketOf tasks b).map (renumberFun tasks b))) :=
    List.pairwise_map.mp hnodup_ord
  have hsorted_lt : List.Sorted ordLT
      (sortByOrder ((bucketOf tasks b).map (renumberFun tasks b))) :=
    (hsorted_le.and hne).imp (fun h => lt_of_le_of_ne h.1 h.2)
  have hsorted_ranked : List.Sorted ordLT
      (assignOrders 0 (sortByOrder (bucketOf tasks b))) :=
    sorted_lt_assignOrders 0 _
  exact List.eq_of_perm_of_sorted
    ((List.perm_insertionSort ordLE _).trans hperm) hsorted_lt hsorted_ranked

/-! Concrete sample data used by witnesses and counterexamples. -/

/-- A sample task with the given id, bucket, order and completion flag. -/
def mkDemoTask (i : String) (b : PriorityLevel) (o : Int) (c : Bool) : Task :=
  { id := i
    title := i
    description := some ""
    deadline := none
    deadlineTime := none
    completed := c
    priority := b
    createdAt := "T0"
    updatedAt := "T0"
    order := o }

/-- Three sample tasks: a gappy urgent-important bucket and one other task. -/
def demoTasks : List Task :=
  [mkDemoTask "a" PriorityLevel.urgentImportant 5 false,
   mkDemoTask "b" PriorityLevel.urgentImportant 3 true,
   mkDemoTask "c" PriorityLevel.importantNotUrgent 7 false]

/-- C2: for every task collection (well-formed per the data model: no
duplicate id inside the bucket) and bucket b, updateTaskOrders — the spec's
renumberBucket — returns the full collection in which every task outside
bucket b is returned unchanged and no task changes anything but its order
(first conjunct), the tasks of bucket b carry order values exactly
0, 1, ..., k-1 where k is the number of tasks in the bucket (second
conjunct), and reading the renumbered bucket in ascending new order yields
exactly the old bucket in ascending old order — the stable sort by previous
order values — with orders reassigned 0, 1, 2, ...: the same relative
sequence (third conjunct). -/
theorem claim_C2_renumberBucket (tasks : List Task) (b : PriorityLevel)
    (hnd : ((bucketOf tasks b).map (fun t => t.id)).Nodup) :
    List.Forall₂ (fun t u => (¬ t.priority = b → u = t) ∧
        u = { t with order := u.order }) tasks (updateTaskOrders tasks b)
    ∧ (bucketOrders (updateTaskOrders tasks b) b).Perm
        ((List.range (bucketOf tasks b).length).map (fun k : Nat => (k : Int)))
    ∧ sortByOrder (bucketOf (updateTaskOrders tasks b) b) =
        assignOrders 0 (sortByOrder (bucketOf tasks b)) := by
  refine ⟨updateTaskOrders_forall₂ tasks b hnd, ?_,
    sortByOrder_updateTaskOrders tasks b hnd⟩
  have hd := dense_bucket_updateTaskOrders tasks b hnd
  unfold denseOrders at hd
  have hlen : (bucketOrders (updateTaskOrders tasks b) b).length =
      (bucketOf tasks b).length := by
    rw [bucketOrders_eq,
      show bucketOf (updateTaskOrders tasks b) b =
        (bucketOf tasks b).map (renumberFun tasks b) from
        updateTaskOrders_filter_bucket tasks b]
    simp
  rw [hlen] at hd
  exact hd

/-- Witness for C2 at a concrete collection with a gappy bucket. -/
theorem claim_C2_renumberBucket_witness :
    ((bucketOf demoTasks PriorityLevel.urgentImportant).map (fun t => t.id)).Nodup
    ∧ (List.Forall₂ (fun t u => (¬ t.priority = PriorityLevel.urgentImportant → u = t) ∧
          u = { t with order := u.order }) demoTasks
          (updateTaskOrders demoTasks PriorityLevel.urgentImportant)
      ∧ (bucketOrders (updateTaskOrders demoTasks PriorityLevel.urgentImportant)
            PriorityLevel.urgentImportant).Perm
          ((List.range (bucketOf demoTasks PriorityLevel.urgentImportant).length).map
            (fun k : Nat => (k : Int)))
      ∧ sortByOrder (bucketOf (updateTaskOrders demoTasks PriorityLevel.urgentImportant)
            PriorityLevel.urgentImportant) =
          assignOrders 0 (sortByOrder (bucketOf demoTasks PriorityLevel.urgentImportant))) :=
  ⟨by decide, claim_C2_renumberBucket demoTasks PriorityLevel.urgentImportant (by decide)⟩

/-! Characterization of changeTaskPriority. -/

theorem changeTaskPriority_none {now : String} {tasks : List Task} {taskId : String}
    {p : PriorityLevel} (hf : tasks.find? (fun t => t.id == taskId) = none) :
    changeTaskPriority now tasks taskId p = tasks := by
  unfold changeTaskPriority
  rw [hf]

theorem changeTaskPriority_same {now : String} {tasks : List Task} {taskId : String}
    {p : PriorityLevel} {td : Task}
    (hf : tasks.find? (fun t => t.id == taskId) = some td)
    (hp : td.priority = p) :
    changeTaskPriority now tasks taskId p = tasks := by
  unfold changeTaskPriority
  rw [hf]
  simp [hp]

/-- The reassigned task changeTaskPriority substitutes for the moved one. -/
def cpUpd (now : String) (p : PriorityLevel) (Δ : Int) (td : Task) : Task :=
  { td with priority := p, order := Δ, updatedAt := now }

/-- The per-task substitution of the map inside changeTaskPriority. -/
def cpFun (now : String) (taskId : String) (p : PriorityLevel) (Δ : Int) :
    Task → Task :=
  fun task => if task.id == taskId then cpUpd now p Δ task else task

theorem changeTaskPriority_eq_renumber {now : String} {tasks : List Task}
    {taskId : String} {p : PriorityLevel} {td : Task}
    (hf : tasks.find? (fun t => t.id == taskId) = some td)
    (hp : ¬ td.priority = p) :
    changeTaskPriority now tasks taskId p =
      updateTaskOrders
        (tasks.map (cpFun now taskId p (jsMaxPlus1 (bucketOrders tasks p))))
        td.priority := by
  unfold changeTaskPriority
  rw [hf]
  dsimp only
  rw [if_neg (by simpa [beq_iff_eq] using hp)]
  rfl

theorem cpFun_of_ne {now taskId : String} {p : PriorityLevel} {Δ : Int} {t : Task}
    (h : ¬ t.id = taskId) : cpFun now taskId p Δ t = t := by
  unfold cpFun
  rw [if_neg (by simpa [beq_iff_eq] using h)]

theorem cpFun_of_eq {now taskId : String} {p : PriorityLevel} {Δ : Int} {t : Task}
    (h : t.id = taskId) : cpFun now taskId p Δ t = cpUpd now p Δ t := by
  unfold cpFun
  rw [if_pos (by simpa [beq_iff_eq] using h)]

/-- Ids are untouched by the reprioritizing substitution. -/
theorem cp_map_id (now : String) (tasks : List Task) (taskId : String)
    (p : PriorityLevel) (Δ : Int) :
    ((tasks.map (cpFun now taskId p Δ)).map (fun t => t.id)) =
      tasks.map (fun t => t.id) := by
  rw [List.map_map]
  apply List.map_congr_left
  intro t _
  show (cpFun now taskId p Δ t).id = t.id
  by_cases h : t.id = taskId
  · rw [cpFun_of_eq h]; rfl
  · rw [cpFun_of_ne h]

/-- Bucket-of-a-filter ids stay duplicate-free when the whole collection's
ids are duplicate-free. -/
theorem bucket_ids_nodup {tasks : List Task}
    (hnd : (tasks.map (fun t => t.id)).Nodup) (b : PriorityLevel) :
    ((bucketOf tasks b).map (fun t => t.id)).Nodup :=
  List.Nodup.sublist ((List.filter_sublist tasks).map (fun t => t.id)) hnd

theorem find?_decomp {tasks : List Task} {taskId : String} {td : Task}
    (hnd : (tasks.map (fun t => t.id)).Nodup)
    (hf : tasks.find? (fun t => t.id == taskId) = some td) :
    td.id = taskId ∧ ∃ pre post, tasks = pre ++ td :: post ∧
      (∀ a ∈ pre, ¬ a.id = taskId) ∧ (∀ a ∈ post, ¬ a.id = taskId) := by
  obtain ⟨hp, pre, post, heq, hpre⟩ := List.find?_eq_some.mp hf
  have htdid : td.id = taskId := beq_iff_eq.mp hp
  refine ⟨htdid, pre, post, heq, ?_, ?_⟩
  · intro a ha
    have h := hpre a ha
    simp only [Bool.not_eq_true', beq_eq_false_iff_ne, ne_eq] at h
    exact h
  · intro a ha haid
    subst heq
    rw [List.map_append, List.map_cons] at hnd
    obtain ⟨_, hndc, _⟩ := List.nodup_append.mp hnd
    obtain ⟨htdnot, _⟩ := List.nodup_cons.mp hndc
    exact htdnot (List.mem_map.mpr ⟨a, ha, haid.trans htdid.symm⟩)

theorem cp_decomp (now : String) (taskId : String) (p : PriorityLevel) (Δ : Int)
    {pre post : List Task} {td : Task}
    (hpre : ∀ a ∈ pre, ¬ a.id = taskId) (hpost : ∀ a ∈ post, ¬ a.id = taskId)
    (htdid : td.id = taskId) :
    (pre ++ td :: post).map (cpFun now taskId p Δ) =
      pre ++ cpUpd now p Δ td :: post := by
  rw [List.map_append, List.map_cons]
  have h1 : pre.map (cpFun now taskId p Δ) = pre := by
    rw [List.map_congr_left (fun a ha => cpFun_of_ne (hpre a ha))]
    simp
  have h2 : post.map (cpFun now taskId p Δ) = post := by
    rw [List.map_congr_left (fun a ha => cpFun_of_ne (hpost a ha))]
    simp
  rw [h1, h2, cpFun_of_eq htdid]

theorem bucketOf_append (l₁ l₂ : List Task) (b : PriorityLevel) :
    bucketOf (l₁ ++ l₂) b = bucketOf l₁ b ++ bucketOf l₂ b :=
  List.filter_append _ _

theorem bucketOf_cons_of_mem {t : Task} {b : PriorityLevel} (l : List Task)
    (h : t.priority = b) : bucketOf (t :: l) b = t :: bucketOf l b := by
  unfold bucketOf
  rw [List.filter_cons, if_pos (by simpa [beq_iff_eq] using h)]

theorem bucketOf_cons_of_not_mem {t : Task} {b : PriorityLevel} (l : List Task)
    (h : ¬ t.priority = b) : bucketOf (t :: l) b = bucketOf l b := by
  unfold bucketOf
  rw [List.filter_cons, if_neg (by simpa [beq_iff_eq] using h)]

/-- Full characterization of the effective branch of changeTaskPriority on a
well-formed collection: the moved task gets the target bucket's append
position, a refreshed updatedAt and the new priority; every other task keeps
everything but possibly its order; tasks outside the old bucket are entirely
unchanged; the old bucket is renumbered densely; the target bucket's orders
gain exactly the appended value; all other buckets are untouched. -/
theorem changeTaskPriority_spec (now : String) (tasks : List Task)
    (taskId : String) (p : PriorityLevel)
    (hnd : (tasks.map (fun t => t.id)).Nodup) {td : Task}
    (hf : tasks.find? (fun t => t.id == taskId) = some td)
    (hne : ¬ td.priority = p) :
    List.Forall₂ (fun t u =>
        (t.id = taskId →
          u = cpUpd now p (jsMaxPlus1 (bucketOrders tasks p)) t)
      ∧ (¬ t.id = taskId → u = { t with order := u.order })
      ∧ (¬ t.id = taskId → ¬ t.priority = td.priority → u = t))
      tasks (changeTaskPriority now tasks taskId p)
    ∧ denseOrders (bucketOrders (changeTaskPriority now tasks taskId p) td.priority)
    ∧ (bucketOrders (changeTaskPriority now tasks taskId p) p).Perm
        (jsMaxPlus1 (bucketOrders tasks p) :: bucketOrders tasks p)
    ∧ (∀ b₂, ¬ b₂ = p → ¬ b₂ = td.priority →
        bucketOrders (changeTaskPriority now tasks taskId p) b₂ =
          bucketOrders tasks b₂) := by
  have hrw := @changeTaskPriority_eq_renumber now tasks taskId p td hf hne
  obtain ⟨htdid, pre, post, heq, hpre, hpost⟩ := find?_decomp hnd hf
  have hmapF : tasks.map (cpFun now taskId p (jsMaxPlus1 (bucketOrders tasks p))) =
      pre ++ cpUpd now p (jsMaxPlus1 (bucketOrders tasks p)) td :: post := by
    rw [heq]
    exact cp_decomp now taskId p _ hpre hpost htdid
  have hUids : ((pre ++ cpUpd now p (jsMaxPlus1 (bucketOrders tasks p)) td :: post).map
      (fun t => t.id)) = tasks.map (fun t => t.id) := by
    rw [← hmapF, cp_map_id]
  have hndU : ((pre ++ cpUpd now p (jsMaxPlus1 (bucketOrders tasks p)) td :: post).map
      (fun t => t.id)).Nodup := by
    rw [hUids]; exact hnd
  have hpne : ¬ p = td.priority := fun h => hne h.symm
  -- the target bucket of the substituted collection gains the moved task
  have hUp : bucketOf (pre ++ cpUpd now p (jsMaxPlus1 (bucketOrders tasks p)) td :: post) p =
      bucketOf pre p ++ cpUpd now p (jsMaxPlus1 (bucketOrders tasks p)) td :: bucketOf post p := by
    rw [bucketOf_append, bucketOf_cons_of_mem _
      (show (cpUpd now p (jsMaxPlus1 (bucketOrders tasks p)) td).priority = p from rfl)]
  have hTp : bucketOf tasks p = bucketOf pre p ++ bucketOf post p := by
    rw [heq, bucketOf_append, bucketOf_cons_of_not_mem _ hne]
  refine ⟨?_, ?_, ?_, ?_⟩
  · -- pointwise description of the result
    have hres : changeTaskPriority now tasks taskId p =
        tasks.map (fun t =>
          renumberFun (pre ++ cpUpd now p (jsMaxPlus1 (bucketOrders tasks p)) td :: post)
            td.priority
            (cpFun now taskId p (jsMaxPlus1 (bucketOrders tasks p)) t)) := by
      rw [hrw, hmapF, updateTaskOrders_eq_map, ← hmapF, List.map_map]
      rfl
    rw [hres]
    refine forall₂_map_self (fun t ht => ⟨?_, ?_, ?_⟩)
    · intro hid
      have hteq : t = td := by
        refine id_inj_of_nodup hnd ht ?_ (by rw [hid, htdid])
        rw [heq]
        exact List.mem_append.mpr (Or.inr (List.mem_cons_self _ _))
      subst hteq
      rw [cpFun_of_eq hid]
      exact renumberFun_of_not_bucket (fun h => hne (h.symm ▸ rfl))
    · intro hid
      rw [cpFun_of_ne hid]
      refine renumberFun_frame _ td.priority (bucket_ids_nodup hndU td.priority) t ?_
      rw [heq] at ht
      rcases List.mem_append.mp ht with h | h
      · exact List.mem_append.mpr (Or.inl h)
      · rcases List.mem_cons.mp h with h₂ | h₂
        · exact absurd (h₂ ▸ htdid) hid
        · exact List.mem_append.mpr (Or.inr (List.mem_cons_of_mem _ h₂))
    · intro hid hpr
      rw [cpFun_of_ne hid]
      exact renumberFun_of_not_bucket hpr
  · -- the old bucket is densely renumbered
    rw [hrw, hmapF]
    exact dense_bucket_updateTaskOrders _ td.priority (bucket_ids_nodup hndU td.priority)
  · -- the target bucket's orders gain exactly the appended value
    rw [hrw, hmapF, bucketOrders_eq,
      show bucketOf (updateTaskOrders
          (pre ++ cpUpd now p (jsMaxPlus1 (bucketOrders tasks p)) td :: post) td.priority) p =
        bucketOf (pre ++ cpUpd now p (jsMaxPlus1 (bucketOrders tasks p)) td :: post) p from
        updateTaskOrders_filter_other _ hpne,
      hUp, List.map_append, List.map_cons]
    have hmid := @List.perm_middle Int
      (jsMaxPlus1 (bucketOrders tasks p))
      ((bucketOf pre p).map (fun t => t.order))
      ((bucketOf post p).map (fun t => t.order))
    refine hmid.trans ?_
    rw [bucketOrders_eq, hTp, List.map_append]
  · -- every other bucket is untouched
    intro b₂ hb₂p hb₂td
    rw [hrw, hmapF]
    have hstep : bucketOf (updateTaskOrders
        (pre ++ cpUpd now p (jsMaxPlus1 (bucketOrders tasks p)) td :: post) td.priority) b₂ =
        bucketOf tasks b₂ := by
      rw [show bucketOf (updateTaskOrders
            (pre ++ cpUpd now p (jsMaxPlus1 (bucketOrders tasks p)) td :: post) td.priority) b₂ =
          bucketOf (pre ++ cpUpd now p (jsMaxPlus1 (bucketOrders tasks p)) td :: post) b₂ from
          updateTaskOrders_filter_other _ hb₂td,
        bucketOf_append, bucketOf_cons_of_not_mem _ (fun h => hb₂p h.symm),
        heq, bucketOf_append, bucketOf_cons_of_not_mem _ (fun h => hb₂td h.symm)]
    exact congrArg (List.map (fun t => t.order)) hstep

/-- C3: reprioritize (changeTaskPriority) is a no-op when the task id is
unknown or the task already sits in the target bucket (first two conjuncts,
returning the input collection itself).  Otherwise the moved task gets
priority = target, order = jsMaxPlus1 of the target bucket's orders — the
maximum order + 1, or 0 when the bucket is empty, exactly the source's
computation — and updatedAt = now; every task already in the target bucket is
returned entirely unchanged (the target bucket is not renumbered); the old
bucket is renumbered to 0..n-1 (denseOrders); and the target bucket's order
multiset gains exactly the one appended value. -/
theorem claim_C3_reprioritize (now : String) (tasks : List Task) (taskId : String)
    (newBucket : PriorityLevel) (hnd : (tasks.map (fun t => t.id)).Nodup) :
    (tasks.find? (fun t => t.id == taskId) = none →
      changeTaskPriority now tasks taskId newBucket = tasks)
    ∧ (∀ td, tasks.find? (fun t => t.id == taskId) = some td →
        td.priority = newBucket →
        changeTaskPriority now tasks taskId newBucket = tasks)
    ∧ (∀ td, tasks.find? (fun t => t.id == taskId) = some td →
        ¬ td.priority = newBucket →
        List.Forall₂ (fun t u =>
            (t.id = taskId → u = cpUpd now newBucket
                (jsMaxPlus1 (bucketOrders tasks newBucket)) t)
          ∧ (¬ t.id = taskId → t.priority = newBucket → u = t))
          tasks (changeTaskPriority now tasks taskId newBucket)
        ∧ denseOrders
            (bucketOrders (changeTaskPriority now tasks taskId newBucket) td.priority)
        ∧ (bucketOrders (changeTaskPriority now tasks taskId newBucket) newBucket).Perm
            (jsMaxPlus1 (bucketOrders tasks newBucket) ::
              bucketOrders tasks newBucket)) := by
  refine ⟨fun hf => changeTaskPriority_none hf,
    fun td hf hp => changeTaskPriority_same hf hp,
    fun td hf hne => ?_⟩
  obtain ⟨hfa, hdense, hperm, _⟩ :=
    changeTaskPriority_spec now tasks taskId newBucket hnd hf hne
  refine ⟨hfa.imp (fun _ _ h => ⟨h.1, ?_⟩), hdense, hperm⟩
  intro hid hpb
  exact h.2.2 hid (fun hptd => hne (hptd ▸ hpb))

/-- Witness for C3 at a concrete collection, moving task c from bucket 2
into the non-empty bucket 1. -/
theorem claim_C3_reprioritize_witness :
    ((demoTasks.map (fun t => t.id)).Nodup)
    ∧ ((demoTasks.find? (fun t => t.id == "c") = none →
          changeTaskPriority "T1" demoTasks "c" PriorityLevel.urgentImportant = demoTasks)
      ∧ (∀ td, demoTasks.find? (fun t => t.id == "c") = some td →
          td.priority = PriorityLevel.urgentImportant →
          changeTaskPriority "T1" demoTasks "c" PriorityLevel.urgentImportant = demoTasks)
      ∧ (∀ td, demoTasks.find? (fun t => t.id == "c") = some td →
          ¬ td.priority = PriorityLevel.urgentImportant →
          List.Forall₂ (fun t u =>
              (t.id = "c" → u = cpUpd "T1" PriorityLevel.urgentImportant
                  (jsMaxPlus1 (bucketOrders demoTasks PriorityLevel.urgentImportant)) t)
            ∧ (¬ t.id = "c" → t.priority = PriorityLevel.urgentImportant → u = t))
            demoTasks (changeTaskPriority "T1" demoTasks "c" PriorityLevel.urgentImportant)
          ∧ denseOrders
              (bucketOrders (changeTaskPriority "T1" demoTasks "c"
                PriorityLevel.urgentImportant) td.priority)
          ∧ (bucketOrders (changeTaskPriority "T1" demoTasks "c"
                PriorityLevel.urgentImportant) PriorityLevel.urgentImportant).Perm
              (jsMaxPlus1 (bucketOrders demoTasks PriorityLevel.urgentImportant) ::
                bucketOrders demoTasks PriorityLevel.urgentImportant))) :=
  ⟨by decide, claim_C3_reprioritize "T1" demoTasks "c" PriorityLevel.urgentImportant (by decide)⟩

/-- C10: renumbering — both updateTaskOrders itself and the old-bucket
renumbering step inside changeTaskPriority — changes only the order field of
the affected tasks: id, title, description, completed, priority, createdAt
and updatedAt are returned exactly as in the input (the structure update
{ t with order := u.order } fixes every other field); in particular
renumbered tasks do not get updatedAt refreshed.  For changeTaskPriority
this covers every task other than the explicitly moved one. -/
theorem claim_C10_renumber_frame (tasks : List Task) (b : PriorityLevel)
    (hnd : (tasks.map (fun t => t.id)).Nodup) :
    List.Forall₂ (fun t u => u = { t with order := u.order })
      tasks (updateTaskOrders tasks b)
    ∧ ∀ (now taskId : String) (newBucket : PriorityLevel),
        List.Forall₂ (fun t u => ¬ t.id = taskId → u = { t with order := u.order })
          tasks (changeTaskPriority now tasks taskId newBucket) := by
  constructor
  · exact (updateTaskOrders_forall₂ tasks b (bucket_ids_nodup hnd b)).imp
      (fun _ _ h => h.2)
  · intro now taskId newBucket
    cases hf : tasks.find? (fun t => t.id == taskId) with
    | none =>
      rw [changeTaskPriority_none hf]
      exact List.forall₂_same.mpr (fun t _ _ => (setOrder_self t).symm)
    | some td =>
      by_cases hp : td.priority = newBucket
      · rw [changeTaskPriority_same hf hp]
        exact List.forall₂_same.mpr (fun t _ _ => (setOrder_self t).symm)
      · exact ((changeTaskPriority_spec now tasks taskId newBucket hnd hf hp).1).imp
          (fun _ _ h hid => h.2.1 hid)

/-- Witness for C10 at a concrete collection. -/
theorem claim_C10_renumber_frame_witness :
    ((demoTasks.map (fun t => t.id)).Nodup)
    ∧ (List.Forall₂ (fun t u => u = { t with order := u.order })
        demoTasks (updateTaskOrders demoTasks PriorityLevel.urgentImportant)
      ∧ ∀ (now taskId : String) (newBucket : PriorityLevel),
          List.Forall₂ (fun t u => ¬ t.id = taskId → u = { t with order := u.order })
            demoTasks (changeTaskPriority now demoTasks taskId newBucket)) :=
  ⟨by decide, claim_C10_renumber_frame demoTasks PriorityLevel.urgentImportant (by decide)⟩

/-! Score lemmas. -/

theorem foldl_add_eq_sum (f : Task → Nat) :
    ∀ (l : List Task) (acc : Nat),
      l.foldl (fun total t => total + f t) acc = acc + (l.map f).sum := by
  intro l
  induction l with
  | nil => intro acc; simp
  | cons t ts ih =>
    intro acc
    rw [List.foldl_cons, ih, List.map_cons, List.sum_cons]
    omega

theorem calculateTotalScore_eq_sum (tasks : List Task) :
    calculateTotalScore tasks =
      (tasks.map (fun t => if t.completed then PriorityScores t.priority else 0)).sum := by
  unfold calculateTotalScore
  rw [foldl_add_eq_sum, Nat.zero_add]
  induction tasks with
  | nil => rfl
  | cons t ts ih =>
    rw [List.filter_cons, List.map_cons, List.sum_cons]
    by_cases hc : t.completed = true
    · rw [if_pos hc, List.map_cons, List.sum_cons, ih, if_pos hc]
    · have hc₂ : t.completed = false := by
        cases h : t.completed
        · rfl
        · exact absurd h hc
      rw [if_neg (by rw [hc₂]; exact Bool.false_ne_true), ih, if_neg hc, Nat.zero_add]

theorem score_pair_sum (tasks : List Task) :
    calculateTotalScore tasks =
      ((tasks.map (fun t => (t.completed, t.priority))).map
        (fun pr : Bool × PriorityLevel =>
          if pr.1 then PriorityScores pr.2 else 0)).sum := by
  rw [calculateTotalScore_eq_sum, List.map_map]
  rfl

theorem score_congr_pairs {tasks tasks₂ : List Task}
    (h : (tasks.map (fun t => (t.completed, t.priority))).Perm
      (tasks₂.map (fun t => (t.completed, t.priority)))) :
    calculateTotalScore tasks = calculateTotalScore tasks₂ := by
  rw [score_pair_sum tasks, score_pair_sum tasks₂]
  exact (h.map _).sum_eq

/-- A rearrangement of the sample tasks with altered order fields but the
same multiset of (completed, priority) pairs. -/
def demoTasksPerm : List Task :=
  [mkDemoTask "c" PriorityLevel.importantNotUrgent 0 false,
   mkDemoTask "a" PriorityLevel.urgentImportant 9 false,
   mkDemoTask "b" PriorityLevel.urgentImportant 1 true]

/-- C4: computeScore (calculateTotalScore) is the sum, over completed tasks,
of the fixed point value of the bucket — 10, 7, 5, 2 — with non-completed
tasks contributing 0 (first conjunct, stated with the literal constants);
it depends only on the multiset of (completed, priority) pairs (second
conjunct), and in particular is invariant under permutation of the input
array (third conjunct) and under the order fields (covered by the second
conjunct, since the pair projection ignores order). -/
theorem claim_C4_computeScore (tasks : List Task) :
    calculateTotalScore tasks =
      (tasks.map (fun t => if t.completed then
        (match t.priority with
         | PriorityLevel.urgentImportant => 10
         | PriorityLevel.importantNotUrgent => 7
         | PriorityLevel.urgentNotImportant => 5
         | PriorityLevel.neitherUrgentNorImportant => 2)
        else 0)).sum
    ∧ (∀ tasks₂ : List Task,
        (tasks.map (fun t => (t.completed, t.priority))).Perm
          (tasks₂.map (fun t => (t.completed, t.priority))) →
        calculateTotalScore tasks = calculateTotalScore tasks₂)
    ∧ (∀ tasks₂ : List Task, tasks.Perm tasks₂ →
        calculateTotalScore tasks = calculateTotalScore tasks₂) :=
  ⟨calculateTotalScore_eq_sum tasks,
   fun _ h => score_congr_pairs h,
   fun _ h => score_congr_pairs (h.map _)⟩

/-- Witness for C4: a concrete rearrangement with changed order fields keeps
the score. -/
theorem claim_C4_computeScore_witness :
    (demoTasks.map (fun t => (t.completed, t.priority))).Perm
      (demoTasksPerm.map (fun t => (t.completed, t.priority)))
    ∧ calculateTotalScore demoTasks = calculateTotalScore demoTasksPerm :=
  ⟨by decide, (claim_C4_computeScore demoTasks).2.1 demoTasksPerm (by decide)⟩

/-! Claims about the state controller's list management and the load path. -/

/-! Branch unfolding equations for the reducer, one per action shape used in
the claims.  Each is definitional. -/

theorem tasksReducer_deleteTodoList (now freshId : String) (s : TasksState)
    (listId : String) :
    tasksReducer now freshId s (TasksAction.deleteTodoList listId) =
      if s.todoLists.length ≤ 1 then s
      else
        { s with
            todoLists := s.todoLists.filter (fun l => !(l.id == listId))
            activeTodoListId :=
              match s.activeTodoListId with
              | some aid =>
                if aid == listId then
                  jsFirstListId (s.todoLists.filter (fun l => !(l.id == listId)))
                else s.activeTodoListId
              | none => s.activeTodoListId } := rfl

theorem tasksReducer_updateTask (now freshId : String) (s : TasksState)
    (payload : Task) :
    tasksReducer now freshId s (TasksAction.updateTask payload) =
      match getActiveTodoList s with
      | none => s
      | some activeTodoList =>
        { s with
            todoLists := updateTodoListHelper now s activeTodoList.id
              (activeTodoList.tasks.map (fun task =>
                if task.id == payload.id then payload else task))
            totalScore := calculateTotalScore
              (activeTodoList.tasks.map (fun task =>
                if task.id == payload.id then payload else task)) } := rfl

theorem tasksReducer_addTask (now freshId : String) (s : TasksState)
    (payload : Task) :
    tasksReducer now freshId s (TasksAction.addTask payload) =
      match getActiveTodoList s with
      | none => s
      | some activeTodoList =>
        { s with
            todoLists := updateTodoListHelper now s activeTodoList.id
              (activeTodoList.tasks ++
                [{ payload with
                    order := jsMaxPlus1 (bucketOrders activeTodoList.tasks payload.priority) }])
            totalScore := calculateTotalScore
              (activeTodoList.tasks ++
                [{ payload with
                    order := jsMaxPlus1 (bucketOrders activeTodoList.tasks payload.priority) }]) } := rfl

theorem tasksReducer_deleteTask (now freshId : String) (s : TasksState)
    (taskId : String) :
    tasksReducer now freshId s (TasksAction.deleteTask taskId) =
      match getActiveTodoList s with
      | none => s
      | some activeTodoList =>
        { s with
            todoLists := updateTodoListHelper now s activeTodoList.id
              (match activeTodoList.tasks.find? (fun t => t.id == taskId) with
               | some taskToDelete =>
                 updateTaskOrders
                   (activeTodoList.tasks.filter (fun t => !(t.id == taskId)))
                   taskToDelete.priority
               | none => activeTodoList.tasks.filter (fun t => !(t.id == taskId)))
            totalScore := calculateTotalScore
              (match activeTodoList.tasks.find? (fun t => t.id == taskId) with
               | some taskToDelete =>
                 updateTaskOrders
                   (activeTodoList.tasks.filter (fun t => !(t.id == taskId)))
                   taskToDelete.priority
               | none => activeTodoList.tasks.filter (fun t => !(t.id == taskId))) } := rfl

theorem tasksReducer_toggleComplete (now freshId : String) (s : TasksState)
    (taskId : String) :
    tasksReducer now freshId s (TasksAction.toggleComplete taskId) =
      match getActiveTodoList s with
      | none => s
      | some activeTodoList =>
        { s with
            todoLists := updateTodoListHelper now s activeTodoList.id
              (activeTodoList.tasks.map (fun task =>
                if task.id == taskId then
                  { task with completed := !task.completed, updatedAt := now }
                else task))
            totalScore := calculateTotalScore
              (activeTodoList.tasks.map (fun task =>
                if task.id == taskId then
                  { task with completed := !task.completed, updatedAt := now }
                else task)) } := rfl

theorem tasksReducer_changePriority (now freshId : String) (s : TasksState)
    (taskId : String) (priority : PriorityLevel) :
    tasksReducer now freshId s (TasksAction.changePriority taskId priority) =
      match getActiveTodoList s with
      | none => s
      | some activeTodoList =>
        { s with
            todoLists := updateTodoListHelper now s activeTodoList.id
              (changeTaskPriority now activeTodoList.tasks taskId priority)
            totalScore := calculateTotalScore
              (changeTaskPriority now activeTodoList.tasks taskId priority) } := rfl

theorem tasksReducer_moveTask (now freshId : String) (s : TasksState)
    (taskId : String) (direction : MoveDirection) :
    tasksReducer now freshId s (TasksAction.moveTask taskId direction) =
      match getActiveTodoList s with
      | none => s
      | some activeTodoList =>
        { s with
            todoLists := updateTodoListHelper now s activeTodoList.id
              (moveTask activeTodoList.tasks taskId direction) } := rfl

theorem tasksReducer_addTodoList (now freshId : String) (s : TasksState)
    (name : String) :
    tasksReducer now freshId s (TasksAction.addTodoList name) =
      { s with
          todoLists := s.todoLists ++
            [{ id := "list-" ++ freshId, name := name, tasks := [],
               createdAt := now, updatedAt := now }]
          activeTodoListId :=
            match s.activeTodoListId with
            | some aid => if aid == "" then some ("list-" ++ freshId) else some aid
            | none => some ("list-" ++ freshId) } := rfl

theorem tasksReducer_updateTodoList (now freshId : String) (s : TasksState)
    (listId name : String) :
    tasksReducer now freshId s (TasksAction.updateTodoList listId name) =
      { s with
          todoLists := s.todoLists.map (fun todoList =>
            if todoList.id == listId then
              { todoList with name := name, updatedAt := now }
            else todoList) } := rfl

theorem tasksReducer_setActiveTodoList (now freshId : String) (s : TasksState)
    (listId : String) :
    tasksReducer now freshId s (TasksAction.setActiveTodoList listId) =
      { s with
          activeTodoListId := some listId
          totalScore :=
            match s.todoLists.find? (fun l => l.id == listId) with
            | some activeTodoList => calculateTotalScore activeTodoList.tasks
            | none => 0 } := rfl

/-- C5: DELETE_TODO_LIST leaves a single-list state unchanged (the last list
is protected); with at least two lists it removes the list with the given
id, leaves the active pointer alone when the deleted id was not active, and
otherwise activates the first remaining list (source: filtered[0]?.id ||
null, captured both through jsFirstListId and through the explicit
first-remaining conjunct). -/
theorem claim_C5_deleteTodoList (now freshId : String) (s : TasksState)
    (listId : String) :
    (s.todoLists.length = 1 →
      tasksReducer now freshId s (TasksAction.deleteTodoList listId) = s)
    ∧ (2 ≤ s.todoLists.length →
        (tasksReducer now freshId s (TasksAction.deleteTodoList listId)).todoLists =
          s.todoLists.filter (fun l => !(l.id == listId))
        ∧ (¬ s.activeTodoListId = some listId →
            (tasksReducer now freshId s
              (TasksAction.deleteTodoList listId)).activeTodoListId =
              s.activeTodoListId)
        ∧ (s.activeTodoListId = some listId →
            (tasksReducer now freshId s
              (TasksAction.deleteTodoList listId)).activeTodoListId =
              jsFirstListId (s.todoLists.filter (fun l => !(l.id == listId))))
        ∧ (s.activeTodoListId = some listId → ∀ l₀ rest,
            s.todoLists.filter (fun l => !(l.id == listId)) = l₀ :: rest →
            ¬ l₀.id = "" →
            (tasksReducer now freshId s
              (TasksAction.deleteTodoList listId)).activeTodoListId = some l₀.id)) := by
  constructor
  · intro hlen
    rw [tasksReducer_deleteTodoList, if_pos (by omega)]
  · intro hlen
    have hcond : ¬ s.todoLists.length ≤ 1 := by omega
    refine ⟨?_, ?_, ?_, ?_⟩
    · rw [tasksReducer_deleteTodoList, if_neg hcond]
    · intro hact
      rw [tasksReducer_deleteTodoList, if_neg hcond]
      cases hai : s.activeTodoListId with
      | none => rfl
      | some aid =>
        have haid : ¬ aid = listId := fun h => hact (by rw [hai, h])
        dsimp only
        rw [if_neg (by simpa [beq_iff_eq] using haid)]
    · intro hact
      rw [tasksReducer_deleteTodoList, if_neg hcond, hact]
      dsimp only
      rw [if_pos (by simp)]
    · intro hact l₀ rest hfil hne
      rw [tasksReducer_deleteTodoList, if_neg hcond, hact]
      dsimp only
      rw [if_pos (by simp), hfil]
      unfold jsFirstListId
      rw [List.head?_cons]
      dsimp only
      rw [if_neg (by simpa [beq_iff_eq] using hne)]

/-- A sample list holding one task, and states built from it. -/
def demoList1 : TodoList :=
  { id := "l1"
    name := "My Tasks"
    tasks := [mkDemoTask "a" PriorityLevel.urgentImportant 0 false]
    createdAt := "T0"
    updatedAt := "T0" }

def demoList2 : TodoList :=
  { id := "l2"
    name := "Work"
    tasks := []
    createdAt := "T0"
    updatedAt := "T0" }

/-- A state with one list, the list active. -/
def demoState : TasksState :=
  { todoLists := [demoList1]
    activeTodoListId := some "l1"
    filter := FilterOption.all
    totalScore := 0
    loading := false }

/-- A state with two lists, the first active. -/
def demoState2 : TasksState :=
  { todoLists := [demoList1, demoList2]
    activeTodoListId := some "l1"
    filter := FilterOption.all
    totalScore := 0
    loading := false }

/-- Witness for C5 on a two-list state deleting the active list. -/
theorem claim_C5_deleteTodoList_witness :
    2 ≤ demoState2.todoLists.length
    ∧ ((tasksReducer "T1" "F0" demoState2 (TasksAction.deleteTodoList "l1")).todoLists =
        demoState2.todoLists.filter (fun l => !(l.id == "l1"))
      ∧ (¬ demoState2.activeTodoListId = some "l1" →
          (tasksReducer "T1" "F0" demoState2
            (TasksAction.deleteTodoList "l1")).activeTodoListId =
            demoState2.activeTodoListId)
      ∧ (demoState2.activeTodoListId = some "l1" →
          (tasksReducer "T1" "F0" demoState2
            (TasksAction.deleteTodoList "l1")).activeTodoListId =
            jsFirstListId (demoState2.todoLists.filter (fun l => !(l.id == "l1"))))
      ∧ (demoState2.activeTodoListId = some "l1" → ∀ l₀ rest,
          demoState2.todoLists.filter (fun l => !(l.id == "l1")) = l₀ :: rest →
          ¬ l₀.id = "" →
          (tasksReducer "T1" "F0" demoState2
            (TasksAction.deleteTodoList "l1")).activeTodoListId = some l₀.id)) :=
  ⟨by decide, (claim_C5_deleteTodoList "T1" "F0" demoState2 "l1").2 (by decide)⟩

/-- C6: with a (truthy) userId, when the remote read returns empty or absent
data — both look like a zero-length array to the source — and local storage
is available and holds a non-empty parsed list collection, loadTodoLists
returns that local collection verbatim. -/
theorem claim_C6_remote_empty_fallback (u : String) (hu : ¬ u = "")
    (store : LocalStore) (parsedLists : List TodoList)
    (hav : store.available = true) (hloc : store.todoLists = some parsedLists)
    (hne : ¬ parsedLists = []) :
    loadTodoLists (some u) (RemoteResult.ok []) store = parsedLists := by
  obtain ⟨av, tls, lg⟩ := store
  simp only at hav hloc
  subst hav
  subst hloc
  unfold loadTodoLists
  dsimp only
  rw [if_neg (show ¬ (u == "") = true from by simpa [beq_iff_eq] using hu)]
  rw [if_neg (show ¬ 0 < ([] : List TodoList).length from by decide)]
  rw [if_pos (show (true : Bool) = true from rfl)]
  dsimp only
  rw [if_pos (List.length_pos.mpr hne)]

/-- A sample one-list local store. -/
def demoStore : LocalStore :=
  { available := true, todoLists := some [demoList1], legacyTasks := none }

/-- Witness for C6 at a concrete store. -/
theorem claim_C6_remote_empty_fallback_witness :
    (¬ ("u1" : String) = "") ∧ demoStore.available = true
    ∧ demoStore.todoLists = some [demoList1] ∧ (¬ [demoList1] = [])
    ∧ loadTodoLists (some "u1") (RemoteResult.ok []) demoStore = [demoList1] :=
  ⟨by decide, by decide, by decide, by decide,
   claim_C6_remote_empty_fallback "u1" (by decide) demoStore [demoList1]
     (by decide) (by decide) (by decide)⟩

/-- The legacy flat task of the C7 scenario, and a store holding only the
legacy key. -/
def demoLegacyTask : Task := mkDemoTask "t1" PriorityLevel.importantNotUrgent 0 false

def demoLegacyStore : LocalStore :=
  { available := true, todoLists := none, legacyTasks := some [demoLegacyTask] }

/-- C7 (divergence witness): on a storage state holding only the flat legacy
task array, the current load path returns one synthesized default list whose
tasks are EMPTY — the legacy task is not carried over — and the legacy key
is still present afterwards, so a subsequent load still finds it.  The
claimed behavior (wrap the legacy tasks into the default list and remove the
key) is implemented by migrateOldTasks, which no current code invokes: the
provider imports it but never calls it; an older revision embedded in
AuthContext.tsx called a parameterless variant that read and removed the
key.  The third conjunct records what the never-invoked migrateOldTasks
would have produced. -/
theorem claim_C7_legacy_not_migrated :
    ((loadDataLists none (RemoteResult.ok []) demoLegacyStore "T0" "F0").1.map
      (fun l => l.tasks) = [[]])
    ∧ (loadDataLists none (RemoteResult.ok []) demoLegacyStore "T0" "F0").2.legacyTasks
        = some [demoLegacyTask]
    ∧ migrateOldTasks "T0" [demoLegacyTask] =
        [{ id := "default", name := "My Tasks", tasks := [demoLegacyTask],
           createdAt := "T0", updatedAt := "T0" }] := by
  decide

/-- C8 counterexample: the reducer's UPDATE_TASK case does not refresh the
task's updatedAt.  In a state whose active list holds task a with updatedAt
T0, dispatching UpdateTask at mutation time T1 with a payload that carries
updatedAt T0 (as the claim's reducer-side refresh would make irrelevant)
stores the task with updatedAt T0, not the mutation time T1. -/
theorem claim_C8_counterexample :
    ((tasksReducer "T1" "F0" demoState (TasksAction.updateTask
        { mkDemoTask "a" PriorityLevel.urgentImportant 0 false with
            title := "edited" })).todoLists.map
      (fun l => l.tasks.map (fun t => t.updatedAt)) = [["T0"]])
    ∧ ¬ ("T0" : String) = "T1" := by
  decide

/-- C8 amended: UPDATE_TASK replaces the task by id with the payload exactly
as given — the stored task's updatedAt equals the payload's updatedAt, not
the mutation time — recomputes the score from the active list's new tasks,
and refreshes the containing list's updatedAt (inside updateTodoListHelper).
The task-level updatedAt refresh happens in the dispatching hook layer:
useTaskOperations.updateTask stamps the payload with the current time before
dispatch, so through the hook the stored task's updatedAt is the mutation
time (last conjunct). -/
theorem claim_C8_updateTask_amended (now freshId : String) (s : TasksState)
    (payload : Task) {L : TodoList} (h : getActiveTodoList s = some L) :
    (tasksReducer now freshId s (TasksAction.updateTask payload)).todoLists =
      updateTodoListHelper now s L.id
        (L.tasks.map (fun t => if t.id == payload.id then payload else t))
    ∧ (tasksReducer now freshId s (TasksAction.updateTask payload)).totalScore =
      calculateTotalScore
        (L.tasks.map (fun t => if t.id == payload.id then payload else t))
    ∧ (∀ u ∈ L.tasks.map (fun t => if t.id == payload.id then payload else t),
        u.id = payload.id → u.updatedAt = payload.updatedAt)
    ∧ (hookUpdateTask now freshId s payload).todoLists =
      updateTodoListHelper now s L.id
        (L.tasks.map (fun t => if t.id == payload.id then
          { payload with updatedAt := now } else t)) := by
  refine ⟨?_, ?_, ?_, ?_⟩
  · rw [tasksReducer_updateTask, h]
  · rw [tasksReducer_updateTask, h]
  · intro u hu hid
    obtain ⟨t, _, ht⟩ := List.mem_map.mp hu
    by_cases hb : (t.id == payload.id) = true
    · rw [if_pos hb] at ht
      rw [← ht]
    · rw [if_neg hb] at ht
      rw [beq_iff_eq] at hb
      rw [← ht] at hid
      exact absurd hid hb
  · unfold hookUpdateTask
    rw [tasksReducer_updateTask, h]

/-- Witness for the amended C8 at the sample one-list state. -/
theorem claim_C8_updateTask_amended_witness :
    getActiveTodoList demoState = some demoList1
    ∧ ((tasksReducer "T1" "F0" demoState (TasksAction.updateTask
          (mkDemoTask "a" PriorityLevel.urgentImportant 0 true))).todoLists =
        updateTodoListHelper "T1" demoState demoList1.id
          (demoList1.tasks.map (fun t =>
            if t.id == (mkDemoTask "a" PriorityLevel.urgentImportant 0 true).id then
              mkDemoTask "a" PriorityLevel.urgentImportant 0 true else t))
      ∧ (tasksReducer "T1" "F0" demoState (TasksAction.updateTask
          (mkDemoTask "a" PriorityLevel.urgentImportant 0 true))).totalScore =
        calculateTotalScore
          (demoList1.tasks.map (fun t =>
            if t.id == (mkDemoTask "a" PriorityLevel.urgentImportant 0 true).id then
              mkDemoTask "a" PriorityLevel.urgentImportant 0 true else t))
      ∧ (∀ u ∈ demoList1.tasks.map (fun t =>
            if t.id == (mkDemoTask "a" PriorityLevel.urgentImportant 0 true).id then
              mkDemoTask "a" PriorityLevel.urgentImportant 0 true else t),
          u.id = (mkDemoTask "a" PriorityLevel.urgentImportant 0 true).id →
          u.updatedAt = (mkDemoTask "a" PriorityLevel.urgentImportant 0 true).updatedAt)
      ∧ (hookUpdateTask "T1" "F0" demoState
          (mkDemoTask "a" PriorityLevel.urgentImportant 0 true)).todoLists =
        updateTodoListHelper "T1" demoState demoList1.id
          (demoList1.tasks.map (fun t =>
            if t.id == (mkDemoTask "a" PriorityLevel.urgentImportant 0 true).id then
              { mkDemoTask "a" PriorityLevel.urgentImportant 0 true with
                  updatedAt := "T1" } else t))) :=
  ⟨by decide, claim_C8_updateTask_amended "T1" "F0" demoState
    (mkDemoTask "a" PriorityLevel.urgentImportant 0 true) (by decide)⟩

/-- C9 counterexample: the core does not refuse empty titles.  createTask
builds a task whose title is the empty string, and the reducer's ADD_TASK
case appends it to the active list: after the dispatch the state holds a
task with an empty title. -/
theorem claim_C9_counterexample :
    (createTask "F0" "T0" "" PriorityLevel.urgentImportant).title = ""
    ∧ ((tasksReducer "T1" "F0" demoState (TasksAction.addTask
        (createTask "F0" "T0" "" PriorityLevel.urgentImportant))).todoLists.map
      (fun l => l.tasks.map (fun t => t.title)) = [["a", ""]]) := by
  decide

/-- C9 amended: empty-or-whitespace-title rejection lives in the dispatching
layer, not the core: useTaskOperations.addTask returns without dispatching
when the trimmed title is empty (first conjunct), while the core itself —
createTask and the reducer's ADD_TASK case — performs no title guard and
appends the payload (with recomputed order) whatever its title (second
conjunct). -/
theorem claim_C9_addTask_amended (now freshId : String) (s : TasksState)
    (title : String) (description deadline : Option String)
    (priority : PriorityLevel) (deadlineTime : Option String) :
    (jsTrim title = "" →
      hookAddTask now freshId s title description deadline priority deadlineTime = s)
    ∧ (∀ (payload : Task) (L : TodoList), getActiveTodoList s = some L →
        (tasksReducer now freshId s (TasksAction.addTask payload)).todoLists =
          updateTodoListHelper now s L.id
            (L.tasks ++ [{ payload with
              order := jsMaxPlus1 (bucketOrders L.tasks payload.priority) }])) := by
  constructor
  · intro htrim
    unfold hookAddTask
    rw [if_pos (by rw [htrim]; simp)]
  · intro payload L hL
    rw [tasksReducer_addTask, hL]

/-- Witness for the amended C9: a whitespace-only title is rejected by the
hook, and the reducer appends an empty-titled payload regardless. -/
theorem claim_C9_addTask_amended_witness :
    (jsTrim "  " = "")
    ∧ (hookAddTask "T1" "F0" demoState "  " none none
        PriorityLevel.urgentImportant none = demoState)
    ∧ ((tasksReducer "T1" "F0" demoState (TasksAction.addTask
        (createTask "F0" "T0" "" PriorityLevel.urgentImportant))).todoLists =
      updateTodoListHelper "T1" demoState demoList1.id
        (demoList1.tasks ++ [{ createTask "F0" "T0" "" PriorityLevel.urgentImportant with
          order := jsMaxPlus1 (bucketOrders demoList1.tasks
            PriorityLevel.urgentImportant) }])) :=
  ⟨by decide,
   (claim_C9_addTask_amended "T1" "F0" demoState "  " none none
     PriorityLevel.urgentImportant none).1 (by decide),
   (claim_C9_addTask_amended "T1" "F0" demoState "  " none none
     PriorityLevel.urgentImportant none).2
     (createTask "F0" "T0" "" PriorityLevel.urgentImportant) demoList1 (by decide)⟩

/-! MOVE_TASK: the pairwise order swap permutes no bucket's order multiset. -/

/-- The per-task substitution of the map inside moveTask: swap the orders of
the moving task and its neighbor. -/
def swapFun (t₁ t₂ : Task) : Task → Task := fun task =>
  if task.id == t₁.id then { task with order := t₂.order }
  else if task.id == t₂.id then { task with order := t₁.order }
  else task

theorem swapFun_of_ne {t₁ t₂ t : Task} (h1 : ¬ t.id = t₁.id)
    (h2 : ¬ t.id = t₂.id) : swapFun t₁ t₂ t = t := by
  unfold swapFun
  rw [if_neg (by simpa [beq_iff_eq] using h1), if_neg (by simpa [beq_iff_eq] using h2)]

theorem swapFun_fst (t₁ t₂ : Task) :
    swapFun t₁ t₂ t₁ = { t₁ with order := t₂.order } := by
  unfold swapFun
  rw [if_pos (by simp)]

theorem swapFun_snd {t₁ t₂ : Task} (hne : ¬ t₂.id = t₁.id) :
    swapFun t₁ t₂ t₂ = { t₂ with order := t₁.order } := by
  unfold swapFun
  rw [if_neg (by simpa [beq_iff_eq] using hne), if_pos (by simp)]

theorem swapFun_priority (t₁ t₂ t : Task) :
    (swapFun t₁ t₂ t).priority = t.priority := by
  unfold swapFun
  by_cases h1 : (t.id == t₁.id) = true
  · rw [if_pos h1]
  · rw [if_neg h1]
    by_cases h2 : (t.id == t₂.id) = true
    · rw [if_pos h2]
    · rw [if_neg h2]

theorem swapFun_comm {t₁ t₂ : Task} (hne : ¬ t₁.id = t₂.id) (t : Task) :
    swapFun t₁ t₂ t = swapFun t₂ t₁ t := by
  by_cases h1 : t.id = t₁.id
  · have h2 : ¬ t.id = t₂.id := fun h => hne (h1 ▸ h)
    unfold swapFun
    rw [if_pos (by simpa [beq_iff_eq] using h1),
      if_neg (by simpa [beq_iff_eq] using h2),
      if_pos (by simpa [beq_iff_eq] using h1)]
  · by_cases h2 : t.id = t₂.id
    · unfold swapFun
      rw [if_neg (by simpa [beq_iff_eq] using h1),
        if_pos (by simpa [beq_iff_eq] using h2),
        if_pos (by simpa [beq_iff_eq] using h2)]
    · rw [swapFun_of_ne h1 h2, swapFun_of_ne h2 h1]

theorem nodup_decomp_facts {α : Type} {xs ys zs : List α} {a b : α}
    (h : (xs ++ a :: (ys ++ b :: zs)).Nodup) :
    (∀ x ∈ xs, ¬ x = a) ∧ (∀ x ∈ xs, ¬ x = b) ∧ (∀ y ∈ ys, ¬ y = a)
    ∧ (∀ y ∈ ys, ¬ y = b) ∧ (∀ z ∈ zs, ¬ z = a) ∧ (∀ z ∈ zs, ¬ z = b) := by
  obtain ⟨hxs, hrest, hdisj⟩ := List.nodup_append.mp h
  obtain ⟨hamem, hrest₂⟩ := List.nodup_cons.mp hrest
  obtain ⟨hys, hbzs, hdisj₂⟩ := List.nodup_append.mp hrest₂
  obtain ⟨hbmem, _⟩ := List.nodup_cons.mp hbzs
  refine ⟨?_, ?_, ?_, ?_, ?_, ?_⟩
  · intro x hx hxa
    exact hdisj hx (by rw [hxa]; exact List.mem_cons_self _ _)
  · intro x hx hxb
    exact hdisj hx (by
      rw [hxb]
      exact List.mem_cons_of_mem _
        (List.mem_append.mpr (Or.inr (List.mem_cons_self _ _))))
  · intro y hy hya
    exact hamem (List.mem_append.mpr (Or.inl (hya ▸ hy)))
  · intro y hy hyb
    exact hdisj₂ hy (by rw [hyb]; exact List.mem_cons_self _ _)
  · intro z hz hza
    exact hamem (List.mem_append.mpr (Or.inr (List.mem_cons_of_mem _ (hza ▸ hz))))
  · intro z hz hzb
    exact hbmem (hzb ▸ hz)

theorem swap_perm_ordered {A C D : List Task} {t₁ t₂ : Task}
    (hnd : ((A ++ t₁ :: (C ++ t₂ :: D)).map (fun t => t.id)).Nodup)
    (hne : ¬ t₁.id = t₂.id) :
    (((A ++ t₁ :: (C ++ t₂ :: D)).map (swapFun t₁ t₂)).map (fun t => t.order)).Perm
      ((A ++ t₁ :: (C ++ t₂ :: D)).map (fun t => t.order)) := by
  have hnd₂ : ((A.map (fun t => t.id)) ++ t₁.id ::
      ((C.map (fun t => t.id)) ++ t₂.id :: (D.map (fun t => t.id)))).Nodup := by
    simpa [List.map_append, List.map_cons] using hnd
  obtain ⟨hA1, hA2, hC1, hC2, hD1, hD2⟩ := nodup_decomp_facts hnd₂
  have hidfact : ∀ (L : List Task),
      (∀ x ∈ L.map (fun t => t.id), ¬ x = t₁.id) →
      (∀ x ∈ L.map (fun t => t.id), ¬ x = t₂.id) →
      L.map (swapFun t₁ t₂) = L := by
    intro L hL1 hL2
    have h : ∀ t ∈ L, swapFun t₁ t₂ t = t := by
      intro t ht
      exact swapFun_of_ne (hL1 t.id (List.mem_map.mpr ⟨t, ht, rfl⟩))
        (hL2 t.id (List.mem_map.mpr ⟨t, ht, rfl⟩))
    rw [List.map_congr_left h]
    simp
  have hswap : (A ++ t₁ :: (C ++ t₂ :: D)).map (swapFun t₁ t₂) =
      A ++ { t₁ with order := t₂.order } ::
        (C ++ { t₂ with order := t₁.order } :: D) := by
    rw [List.map_append, List.map_cons, List.map_append, List.map_cons,
      hidfact A hA1 hA2, hidfact C hC1 hC2, hidfact D hD1 hD2,
      swapFun_fst, swapFun_snd (fun h => hne h.symm)]
  rw [hswap, List.map_append, List.map_cons, List.map_append, List.map_cons,
    List.map_append, List.map_cons, List.map_append, List.map_cons]
  apply List.Perm.append_left
  show (t₂.order :: ((C.map (fun t => t.order)) ++ t₁.order :: (D.map (fun t => t.order)))).Perm
    (t₁.order :: ((C.map (fun t => t.order)) ++ t₂.order :: (D.map (fun t => t.order))))
  have p1 := @List.perm_middle Int t₁.order (C.map (fun t => t.order)) (D.map (fun t => t.order))
  have p2 := @List.perm_middle Int t₂.order (C.map (fun t => t.order)) (D.map (fun t => t.order))
  exact ((p1.cons t₂.order).trans
    ((List.Perm.swap t₁.order t₂.order _).trans (p2.cons t₁.order).symm))

theorem swap_perm_of_mem {l : List Task} {t₁ t₂ : Task}
    (hnd : (l.map (fun t => t.id)).Nodup) (h₁ : t₁ ∈ l) (h₂ : t₂ ∈ l)
    (hne : ¬ t₁.id = t₂.id) :
    ((l.map (swapFun t₁ t₂)).map (fun t => t.order)).Perm
      (l.map (fun t => t.order)) := by
  obtain ⟨A, B, hAB⟩ := List.append_of_mem h₁
  subst hAB
  rcases List.mem_append.mp h₂ with h₂A | h₂B
  · obtain ⟨C, D, hCD⟩ := List.append_of_mem h₂A
    subst hCD
    have hshape : (C ++ t₂ :: D) ++ t₁ :: B = C ++ t₂ :: (D ++ t₁ :: B) := by
      simp
    rw [hshape] at hnd ⊢
    have hcomm : (C ++ t₂ :: (D ++ t₁ :: B)).map (swapFun t₁ t₂) =
        (C ++ t₂ :: (D ++ t₁ :: B)).map (swapFun t₂ t₁) :=
      List.map_congr_left (fun t _ => swapFun_comm hne t)
    rw [hcomm]
    exact swap_perm_ordered hnd (fun h => hne h.symm)
  · rcases List.mem_cons.mp h₂B with h₂e | h₂B₂
    · exact absurd (congrArg (fun t => t.id) h₂e.symm) hne
    · obtain ⟨C, D, hCD⟩ := List.append_of_mem h₂B₂
      subst hCD
      exact swap_perm_ordered hnd hne

theorem swap_orders_perm (tasks : List Task) {t₁ t₂ : Task}
    (hnd : (tasks.map (fun t => t.id)).Nodup)
    (h₁ : t₁ ∈ tasks) (h₂ : t₂ ∈ tasks) (hne : ¬ t₁.id = t₂.id)
    (hpp : t₂.priority = t₁.priority) (b : PriorityLevel) :
    (bucketOrders (tasks.map (swapFun t₁ t₂)) b).Perm (bucketOrders tasks b) := by
  have hfil : (tasks.map (swapFun t₁ t₂)).filter (fun t => t.priority == b) =
      (tasks.filter (fun t => t.priority == b)).map (swapFun t₁ t₂) :=
    filter_map_of_pres (fun t _ => by rw [swapFun_priority])
  rw [bucketOrders_eq, bucketOrders_eq]
  rw [show bucketOf (tasks.map (swapFun t₁ t₂)) b =
    (bucketOf tasks b).map (swapFun t₁ t₂) from hfil]
  by_cases hb : t₁.priority = b
  · have h₁b : t₁ ∈ bucketOf tasks b :=
      List.mem_filter.mpr ⟨h₁, by simpa [beq_iff_eq] using hb⟩
    have h₂b : t₂ ∈ bucketOf tasks b :=
      List.mem_filter.mpr ⟨h₂, by simpa [beq_iff_eq] using hpp.trans hb⟩
    exact swap_perm_of_mem (bucket_ids_nodup hnd b) h₁b h₂b hne
  · have hid : ∀ t ∈ bucketOf tasks b, swapFun t₁ t₂ t = t := by
      intro t ht
      obtain ⟨htm, htp⟩ := List.mem_filter.mp ht
      have htp₂ : t.priority = b := beq_iff_eq.mp htp
      refine swapFun_of_ne (fun h => ?_) (fun h => ?_)
      · exact hb ((id_inj_of_nodup hnd htm h₁ h) ▸ htp₂)
      · exact hb (hpp ▸ ((id_inj_of_nodup hnd htm h₂ h) ▸ htp₂))
    rw [List.map_congr_left hid]
    simp

theorem moveTask_swap_core {tasks : List Task} {taskId : String} {t₁ t₂ : Task}
    {ci ti : Nat}
    (hnd : (tasks.map (fun t => t.id)).Nodup)
    (hf : tasks.find? (fun t => t.id == taskId) = some t₁)
    (hidx : (sortByOrder (tasks.filter (fun t => t.priority == t₁.priority))).findIdx?
        (fun t => t.id == taskId) = some ci)
    (hget : (sortByOrder (tasks.filter (fun t => t.priority == t₁.priority)))[ti]? =
      some t₂)
    (hne : ¬ ti = ci) (b : PriorityLevel) :
    (bucketOrders (tasks.map (swapFun t₁ t₂)) b).Perm (bucketOrders tasks b) := by
  have h₁ : t₁ ∈ tasks := List.mem_of_find?_eq_some hf
  have h₁pred := List.find?_some hf
  have h₁id : t₁.id = taskId := beq_iff_eq.mp h₁pred
  obtain ⟨hti, hgeteq⟩ := List.getElem?_eq_some.mp hget
  have h₂s : t₂ ∈ sortByOrder (tasks.filter (fun t => t.priority == t₁.priority)) :=
    hgeteq ▸ List.getElem_mem hti
  have h₂f : t₂ ∈ tasks.filter (fun t => t.priority == t₁.priority) :=
    mem_sortByOrder h₂s
  have h₂ : t₂ ∈ tasks := (List.mem_filter.mp h₂f).1
  have hpp : t₂.priority = t₁.priority := beq_iff_eq.mp (List.mem_filter.mp h₂f).2
  obtain ⟨hci, hcipred, _⟩ := List.findIdx?_eq_some_iff_getElem.mp hidx
  have hcid : ((sortByOrder (tasks.filter (fun t => t.priority == t₁.priority))).get
      ⟨ci, hci⟩).id = taskId := beq_iff_eq.mp hcipred
  have hndsorted : (((sortByOrder (tasks.filter
      (fun t => t.priority == t₁.priority)))).map (fun t => t.id)).Nodup :=
    sortByOrder_map_id_nodup (bucket_ids_nodup hnd t₁.priority)
  have hneid : ¬ t₁.id = t₂.id := by
    intro heq
    apply hne
    have e₁ : (sortByOrder (tasks.filter (fun t => t.priority == t₁.priority))).get
        ⟨ti, hti⟩ = t₂ := hgeteq
    have hmemti : (sortByOrder (tasks.filter (fun t => t.priority == t₁.priority))).get
        ⟨ti, hti⟩ ∈ sortByOrder (tasks.filter (fun t => t.priority == t₁.priority)) :=
      List.getElem_mem hti
    have hmemci : (sortByOrder (tasks.filter (fun t => t.priority == t₁.priority))).get
        ⟨ci, hci⟩ ∈ sortByOrder (tasks.filter (fun t => t.priority == t₁.priority)) :=
      List.getElem_mem hci
    have hteq : (sortByOrder (tasks.filter (fun t => t.priority == t₁.priority))).get
        ⟨ti, hti⟩ =
        (sortByOrder (tasks.filter (fun t => t.priority == t₁.priority))).get
        ⟨ci, hci⟩ := by
      refine id_inj_of_nodup hndsorted hmemti hmemci ?_
      rw [e₁, ← heq, h₁id, hcid]
    have hfin : (⟨ti, hti⟩ : Fin (sortByOrder (tasks.filter
        (fun t => t.priority == t₁.priority))).length) = ⟨ci, hci⟩ :=
      List.nodup_iff_injective_get.mp (List.Nodup.of_map _ hndsorted) hteq
    simpa using congrArg Fin.val hfin
  exact swap_orders_perm tasks hnd h₁ h₂ hneid hpp b

theorem moveTask_bucketOrders_perm (tasks : List Task) (taskId : String)
    (d : MoveDirection) (hnd : (tasks.map (fun t => t.id)).Nodup)
    (b : PriorityLevel) :
    (bucketOrders (moveTask tasks taskId d) b).Perm (bucketOrders tasks b) := by
  unfold moveTask
  cases hf : tasks.find? (fun t => t.id == taskId) with
  | none => exact List.Perm.refl _
  | some t₁ =>
    dsimp only
    cases hidx : (sortByOrder (tasks.filter (fun t => t.priority == t₁.priority))).findIdx?
        (fun t => t.id == taskId) with
    | none => exact List.Perm.refl _
    | some ci =>
      dsimp only
      cases d with
      | up =>
        dsimp only
        by_cases hci : 0 < ci
        · rw [if_pos hci]
          dsimp only
          cases hget : (sortByOrder (tasks.filter
              (fun t => t.priority == t₁.priority)))[ci - 1]? with
          | none => exact List.Perm.refl _
          | some t₂ =>
            dsimp only
            exact moveTask_swap_core hnd hf hidx hget (by omega) b
        · rw [if_neg hci]
      | down =>
        dsimp only
        by_cases hci : ci < (sortByOrder (tasks.filter
            (fun t => t.priority == t₁.priority))).length - 1
        · rw [if_pos hci]
          dsimp only
          cases hget : (sortByOrder (tasks.filter
              (fun t => t.priority == t₁.priority)))[ci + 1]? with
          | none => exact List.Perm.refl _
          | some t₂ =>
            dsimp only
            exact moveTask_swap_core hnd hf hidx hget (by omega) b
        · rw [if_neg hci]

/-! Helpers for the density-preservation claim about the reducer. -/

theorem getActiveTodoList_mem {s : TasksState} {L : TodoList}
    (h : getActiveTodoList s = some L) : L ∈ s.todoLists := by
  unfold getActiveTodoList at h
  cases hai : s.activeTodoListId with
  | none => rw [hai] at h; simp at h
  | some aid =>
    rw [hai] at h
    dsimp only at h
    by_cases h1 : (aid == "") = true
    · rw [if_pos h1] at h; simp at h
    · rw [if_neg h1] at h
      by_cases h2 : s.todoLists.isEmpty = true
      · rw [if_pos h2] at h; simp at h
      · rw [if_neg h2] at h
        exact List.mem_of_find?_eq_some h

theorem updateTodoListHelper_dense {now : String} {s : TasksState} {lid : String}
    {newTasks : List Task}
    (hwf : ∀ L ∈ s.todoLists, ∀ b, denseOrders (bucketOrders L.tasks b))
    (hnew : ∀ b, denseOrders (bucketOrders newTasks b)) :
    ∀ L ∈ updateTodoListHelper now s lid newTasks, ∀ b,
      denseOrders (bucketOrders L.tasks b) := by
  intro L hL b
  obtain ⟨L₀, hL₀, hmap⟩ := List.mem_map.mp hL
  by_cases hid : (L₀.id == lid) = true
  · rw [if_pos hid] at hmap
    rw [← hmap]
    exact hnew b
  · rw [if_neg hid] at hmap
    rw [← hmap]
    exact hwf L₀ hL₀ b

theorem dense_addTask {tasks : List Task} {payload : Task}
    (hd : ∀ b, denseOrders (bucketOrders tasks b)) :
    ∀ b, denseOrders (bucketOrders (tasks ++ [{ payload with
      order := jsMaxPlus1 (bucketOrders tasks payload.priority) }]) b) := by
  intro b
  rw [bucketOrders_eq, bucketOf_append]
  by_cases hb : payload.priority = b
  · rw [bucketOf_cons_of_mem _ (show ({ payload with
        order := jsMaxPlus1 (bucketOrders tasks payload.priority) } : Task).priority = b
        from hb)]
    rw [show bucketOf ([] : List Task) b = [] from rfl, List.map_append]
    rw [show ({ payload with
        order := jsMaxPlus1 (bucketOrders tasks payload.priority) } : Task) ::
        ([] : List Task) = [{ payload with
        order := jsMaxPlus1 (bucketOrders tasks payload.priority) }] from rfl]
    rw [show ([{ payload with
        order := jsMaxPlus1 (bucketOrders tasks payload.priority) }] : List Task).map
        (fun t => t.order) = [jsMaxPlus1 (bucketOrders tasks payload.priority)] from rfl]
    rw [hb]
    exact denseOrders_append_jsMax (hd b)
  · rw [bucketOf_cons_of_not_mem _ (show ¬ ({ payload with
        order := jsMaxPlus1 (bucketOrders tasks payload.priority) } : Task).priority = b
        from hb)]
    rw [show bucketOf ([] : List Task) b = [] from rfl, List.append_nil]
    exact hd b

theorem bucketOrders_map_eq {tasks : List Task} {F : Task → Task}
    (hpres : ∀ t ∈ tasks, (F t).priority = t.priority ∧ (F t).order = t.order) :
    ∀ b, bucketOrders (tasks.map F) b = bucketOrders tasks b := by
  intro b
  rw [bucketOrders_eq, bucketOrders_eq]
  rw [show bucketOf (tasks.map F) b = (bucketOf tasks b).map F from
    filter_map_of_pres (fun t ht => by rw [(hpres t ht).1])]
  rw [List.map_map]
  exact List.map_congr_left (fun t ht => (hpres t (List.mem_filter.mp ht).1).2)

theorem bucketOf_filter_ne {tasks : List Task} {tid : String} {td : Task}
    (hnd : (tasks.map (fun t => t.id)).Nodup)
    (hf : tasks.find? (fun t => t.id == tid) = some td)
    {b : PriorityLevel} (hb : ¬ td.priority = b) :
    bucketOf (tasks.filter (fun t => !(t.id == tid))) b = bucketOf tasks b := by
  unfold bucketOf
  rw [List.filter_filter]
  apply List.filter_congr
  intro t ht
  by_cases hp : (t.priority == b) = true
  · have htdp := List.find?_some hf
    have htid : ¬ t.id = tid := by
      intro hid
      have hteq : t = td :=
        id_inj_of_nodup hnd ht (List.mem_of_find?_eq_some hf)
          (hid.trans (beq_iff_eq.mp htdp).symm)
      exact hb (hteq ▸ (beq_iff_eq.mp hp))
    simp [hp, htid]
  · simp [hp]

/-- The ten actions named by the density-preservation claim: the six
task-level actions and the four list-management actions. -/
def ClaimedAction : TasksAction → Prop
  | TasksAction.addTask _ => True
  | TasksAction.updateTask _ => True
  | TasksAction.deleteTask _ => True
  | TasksAction.toggleComplete _ => True
  | TasksAction.changePriority _ _ => True
  | TasksAction.moveTask _ _ => True
  | TasksAction.addTodoList _ => True
  | TasksAction.updateTodoList _ _ => True
  | TasksAction.deleteTodoList _ => True
  | TasksAction.setActiveTodoList _ => True
  | _ => False

/-- handleSave from the Task component (src/components/Task.tsx): when the
trimmed edited title is truthy, the edit form dispatches UPDATE_TASK through
useTaskOperations.updateTask with the edited title, description, deadline,
deadlineTime and priority spread over the existing task — so the payload
carries the task's old order even when the priority was changed. -/
def handleSave (now freshId : String) (state : TasksState) (task : Task)
    (editedTitle editedDescription editedDeadline editedDeadlineTime : String)
    (editedPriority : PriorityLevel) : TasksState :=
  if jsTrim editedTitle == "" then state
  else hookUpdateTask now freshId state
    { task with
        title := editedTitle
        description := some editedDescription
        deadline := some editedDeadline
        deadlineTime := some editedDeadlineTime
        priority := editedPriority }

/-- A list whose urgent-important bucket holds two tasks with dense orders
0 and 1, and the state having it active. -/
def demoList3 : TodoList :=
  { id := "l1"
    name := "My Tasks"
    tasks := [mkDemoTask "a" PriorityLevel.urgentImportant 0 false,
              mkDemoTask "b" PriorityLevel.urgentImportant 1 false]
    createdAt := "T0"
    updatedAt := "T0" }

def demoState3 : TasksState :=
  { todoLists := [demoList3]
    activeTodoListId := some "l1"
    filter := FilterOption.all
    totalScore := 0
    loading := false }

/-- C1 counterexample: the claim fails at a reachable state under a reachable
flow.  demoState3 is dense in every bucket and has unique task ids; saving the
edit form on task b with its priority changed to important-not-urgent
(handleSave, which dispatches UPDATE_TASK with the new priority and the old
order 1, and which the reducer stores verbatim without renumbering) leaves the
important-not-urgent bucket with orders [1] — not a dense zero-based
sequence.  The last conjunct records that this flow is exactly the
UPDATE_TASK action of the claim's action table. -/
theorem claim_C1_counterexample :
    (∀ L ∈ demoState3.todoLists, (∀ b, denseOrders (bucketOrders L.tasks b)) ∧
      (L.tasks.map (fun t => t.id)).Nodup)
    ∧ ¬ (∀ L ∈ (handleSave "T1" "F0" demoState3
          (mkDemoTask "b" PriorityLevel.urgentImportant 1 false)
          "b" "" "" "" PriorityLevel.importantNotUrgent).todoLists,
        ∀ b, denseOrders (bucketOrders L.tasks b))
    ∧ handleSave "T1" "F0" demoState3
        (mkDemoTask "b" PriorityLevel.urgentImportant 1 false)
        "b" "" "" "" PriorityLevel.importantNotUrgent
      = tasksReducer "T1" "F0" demoState3 (TasksAction.updateTask
          { mkDemoTask "b" PriorityLevel.urgentImportant 1 false with
              title := "b"
              description := some ""
              deadline := some ""
              deadlineTime := some ""
              priority := PriorityLevel.importantNotUrgent
              updatedAt := "T1" }) := by
  decide

/-- C1 (amended): starting from any state whose lists are all dense per bucket
and have unique task ids, every one of the ten claimed actions (AddTask,
UpdateTask, DeleteTask, ToggleComplete, ChangePriority, MoveTask, AddTodoList,
UpdateTodoList, DeleteTodoList, SetActiveTodoList) preserves per-bucket
density in every list — provided the UPDATE_TASK payload, if any, leaves the
stored task's priority and order unchanged.  The proviso is genuinely
restrictive: the reducer stores the payload verbatim without renumbering, and
nothing enforces it — the edit form's save handler (handleSave above)
dispatches priority-changing payloads carrying the old order, a reachable
flow under which density does break, as the counterexample exhibits. -/
theorem claim_C1_density_amended (now freshListId : String) (s : TasksState)
    (a : TasksAction)
    (hwf : ∀ L ∈ s.todoLists, (∀ b, denseOrders (bucketOrders L.tasks b)) ∧
      (L.tasks.map (fun t => t.id)).Nodup)
    (hact : ClaimedAction a)
    (hupd : ∀ payload, a = TasksAction.updateTask payload →
      ∀ L ∈ s.todoLists, ∀ t ∈ L.tasks, t.id = payload.id →
        t.priority = payload.priority ∧ t.order = payload.order) :
    ∀ L ∈ (tasksReducer now freshListId s a).todoLists, ∀ b,
      denseOrders (bucketOrders L.tasks b) := by
  have hwfd : ∀ L ∈ s.todoLists, ∀ b, denseOrders (bucketOrders L.tasks b) :=
    fun L hL => (hwf L hL).1
  cases a with
  | addTask payload =>
    rw [tasksReducer_addTask]
    cases hA : getActiveTodoList s with
    | none => exact hwfd
    | some A =>
      dsimp only
      exact updateTodoListHelper_dense hwfd
        (dense_addTask (hwfd A (getActiveTodoList_mem hA)))
  | updateTask payload =>
    rw [tasksReducer_updateTask]
    cases hA : getActiveTodoList s with
    | none => exact hwfd
    | some A =>
      dsimp only
      have hAmem := getActiveTodoList_mem hA
      have hpres : ∀ t ∈ A.tasks,
          ((fun task => if task.id == payload.id then payload else task) t).priority
            = t.priority ∧
          ((fun task => if task.id == payload.id then payload else task) t).order
            = t.order := by
        intro t ht
        dsimp only
        by_cases hid : (t.id == payload.id) = true
        · rw [if_pos hid]
          have h2 := hupd payload rfl A hAmem t ht (beq_iff_eq.mp hid)
          exact ⟨h2.1.symm, h2.2.symm⟩
        · rw [if_neg hid]
          exact ⟨rfl, rfl⟩
      refine updateTodoListHelper_dense hwfd ?_
      intro b
      rw [bucketOrders_map_eq hpres b]
      exact hwfd A hAmem b
  | deleteTask taskId =>
    rw [tasksReducer_deleteTask]
    cases hA : getActiveTodoList s with
    | none => exact hwfd
    | some A =>
      dsimp only
      have hAmem := getActiveTodoList_mem hA
      have hnd := (hwf A hAmem).2
      refine updateTodoListHelper_dense hwfd ?_
      cases hfind : A.tasks.find? (fun t => t.id == taskId) with
      | none =>
        dsimp only
        have heq : A.tasks.filter (fun t => !(t.id == taskId)) = A.tasks := by
          apply List.filter_eq_self.mpr
          intro t ht
          simpa using List.find?_eq_none.mp hfind t ht
        rw [heq]
        exact hwfd A hAmem
      | some td =>
        dsimp only
        intro b
        have hndfil : ((A.tasks.filter (fun t => !(t.id == taskId))).map
            (fun t => t.id)).Nodup :=
          List.Nodup.sublist
            ((List.filter_sublist A.tasks).map (fun t => t.id)) hnd
        by_cases hb : b = td.priority
        · subst hb
          exact dense_bucket_updateTaskOrders _ _ (bucket_ids_nodup hndfil _)
        · have h2 : bucketOf (updateTaskOrders
              (A.tasks.filter (fun t => !(t.id == taskId))) td.priority) b =
              bucketOf (A.tasks.filter (fun t => !(t.id == taskId))) b :=
            updateTaskOrders_filter_other _ hb
          have h3 := bucketOf_filter_ne hnd hfind (fun h => hb h.symm)
          rw [bucketOrders_eq, h2, h3, ← bucketOrders_eq]
          exact hwfd A hAmem b
  | toggleComplete taskId =>
    rw [tasksReducer_toggleComplete]
    cases hA : getActiveTodoList s with
    | none => exact hwfd
    | some A =>
      dsimp only
      have hAmem := getActiveTodoList_mem hA
      have hpres : ∀ t ∈ A.tasks,
          ((fun task => if task.id == taskId then
              { task with completed := !task.completed, updatedAt := now }
            else task) t).priority = t.priority ∧
          ((fun task => if task.id == taskId then
              { task with completed := !task.completed, updatedAt := now }
            else task) t).order = t.order := by
        intro t _
        dsimp only
        by_cases hid : (t.id == taskId) = true
        · rw [if_pos hid]
          exact ⟨rfl, rfl⟩
        · rw [if_neg hid]
          exact ⟨rfl, rfl⟩
      refine updateTodoListHelper_dense hwfd ?_
      intro b
      rw [bucketOrders_map_eq hpres b]
      exact hwfd A hAmem b
  | changePriority taskId p =>
    rw [tasksReducer_changePriority]
    cases hA : getActiveTodoList s with
    | none => exact hwfd
    | some A =>
      dsimp only
      have hAmem := getActiveTodoList_mem hA
      have hnd := (hwf A hAmem).2
      refine updateTodoListHelper_dense hwfd ?_
      cases hfind : A.tasks.find? (fun t => t.id == taskId) with
      | none =>
        rw [changeTaskPriority_none hfind]
        exact hwfd A hAmem
      | some td =>
        by_cases hp : td.priority = p
        · rw [changeTaskPriority_same hfind hp]
          exact hwfd A hAmem
        · obtain ⟨_, hdold, hptgt, hother⟩ :=
            changeTaskPriority_spec now A.tasks taskId p hnd hfind hp
          intro b
          by_cases hb1 : b = td.priority
          · subst hb1
            exact hdold
          · by_cases hb2 : b = p
            · subst hb2
              exact denseOrders_perm hptgt.symm
                (denseOrders_cons_jsMax (hwfd A hAmem b))
            · rw [hother b hb2 hb1]
              exact hwfd A hAmem b
  | moveTask taskId direction =>
    rw [tasksReducer_moveTask]
    cases hA : getActiveTodoList s with
    | none => exact hwfd
    | some A =>
      dsimp only
      have hAmem := getActiveTodoList_mem hA
      refine updateTodoListHelper_dense hwfd ?_
      intro b
      exact denseOrders_perm
        (moveTask_bucketOrders_perm A.tasks taskId direction (hwf A hAmem).2 b).symm
        (hwfd A hAmem b)
  | setFilter f => exact hact.elim
  | calculateScore => exact hact.elim
  | addTodoList name =>
    rw [tasksReducer_addTodoList]
    dsimp only
    intro L hL b
    rcases List.mem_append.mp hL with h | h
    · exact hwfd L h b
    · rw [List.mem_singleton.mp h]
      exact denseOrders_nil
  | updateTodoList listId name =>
    rw [tasksReducer_updateTodoList]
    dsimp only
    intro L hL b
    obtain ⟨L₀, hL₀, hmap⟩ := List.mem_map.mp hL
    by_cases hid : (L₀.id == listId) = true
    · rw [if_pos hid] at hmap
      rw [← hmap]
      exact hwfd L₀ hL₀ b
    · rw [if_neg hid] at hmap
      rw [← hmap]
      exact hwfd L₀ hL₀ b
  | deleteTodoList listId =>
    rw [tasksReducer_deleteTodoList]
    by_cases hlen : s.todoLists.length ≤ 1
    · rw [if_pos hlen]
      exact hwfd
    · rw [if_neg hlen]
      dsimp only
      intro L hL b
      exact hwfd L (List.mem_of_mem_filter hL) b
  | setActiveTodoList listId =>
    rw [tasksReducer_setActiveTodoList]
    dsimp only
    exact hwfd
  | setLoading b => exact hact.elim
  | initializeData payload => exact hact.elim

/-- Witness for the amended C1 theorem: toggling completion on the
single-task demo state keeps every bucket of every list dense. -/
theorem claim_C1_density_amended_witness :
    ((∀ L ∈ demoState.todoLists, (∀ b, denseOrders (bucketOrders L.tasks b)) ∧
        (L.tasks.map (fun t => t.id)).Nodup)
      ∧ ClaimedAction (TasksAction.toggleComplete "a"))
    ∧ ∀ L ∈ (tasksReducer "T1" "F0" demoState
        (TasksAction.toggleComplete "a")).todoLists, ∀ b,
        denseOrders (bucketOrders L.tasks b) :=
  ⟨⟨by decide, trivial⟩,
    claim_C1_density_amended "T1" "F0" demoState (TasksAction.toggleComplete "a")
      (by decide) trivial (by intro payload h; cases h)⟩
